import Mathlib

/-!
Verification of the Result Correlation & Ranking Engine
(`src/core/search_engine.py` of the Actimel repository).

The Python code is shallowly embedded: dictionaries become association
lists preserving insertion order, floats become rationals, `datetime`
values become integer day counts so that `age.days` is plain integer
subtraction.  The spaCy text-similarity model used for multi-word
values is an external collaborator and is kept abstract as a function
parameter `nlpSim`; every concrete evaluation below stays on inputs
that never reach that branch.
-/

namespace Actimel

/-- Python values occurring in `raw_data` / `metadata` /
`parameters` mappings: strings, numbers, datetimes (day counts),
lists and nested dicts. -/
inductive Value where
  | VStr : String → Value
  | VNum : ℚ → Value
  | VTime : ℤ → Value
  | VList : List Value → Value
  | VDict : List (String × Value) → Value

/-- A Python dict with string keys, as an insertion-ordered association list. -/
abbrev Dict := List (String × Value)

/-- `d[k]` lookup (keys are unique in dicts produced by the model). -/
def dlookup (d : Dict) (k : String) : Option Value :=
  (d.find? (fun p => p.1 == k)).map (fun p => p.2)

/-- Python `k in d`. -/
def hasKey (d : Dict) (k : String) : Bool :=
  d.any (fun p => p.1 == k)

/-- Python `d[k] = v`: update in place keeping the key's position,
or append a fresh key at the end. -/
def dictSet (d : Dict) (k : String) (v : Value) : Dict :=
  if d.any (fun p => p.1 == k) then
    d.map (fun p => if p.1 == k then (k, v) else p)
  else
    d ++ [(k, v)]

/-- Python `str()` restricted to the value shapes the engine actually
compares; container renderings are abstracted (no modelled input puts a
container into a compared field). -/
def pyStr : Value → String
  | .VStr s => s
  | .VNum q => toString q
  | .VTime t => toString t
  | .VList _ => ""
  | .VDict _ => ""

/-- Python truthiness of a value (`not value`). -/
def pyTruthy : Value → Bool
  | .VStr s => s ≠ ""
  | .VNum q => q ≠ 0
  | .VTime _ => true
  | .VList l => ¬ l.isEmpty
  | .VDict d => ¬ d.isEmpty

/-- Python substring test `needle in hay` on character lists
(the empty needle is in every string). -/
def charsIn (needle : List Char) : List Char → Bool
  | [] => needle.isEmpty
  | c :: rest => (needle == (c :: rest).take needle.length) || charsIn needle rest

/-- Python `str.lower()` (ASCII model). -/
def toLowerChars (cs : List Char) : List Char := cs.map Char.toLower

/-- Python `str.strip()`: drop whitespace at both ends. -/
def trimChars (cs : List Char) : List Char :=
  ((cs.dropWhile Char.isWhitespace).reverse.dropWhile Char.isWhitespace).reverse

/-- Accumulator pass collecting maximal non-whitespace runs. -/
def wordsAux : List Char → List Char → List (List Char)
  | [], acc => if acc.isEmpty then [] else [acc.reverse]
  | c :: rest, acc =>
      if c.isWhitespace then
        if acc.isEmpty then wordsAux rest [] else acc.reverse :: wordsAux rest []
      else wordsAux rest (c :: acc)

/-- Maximal non-whitespace runs, Python `str.split()` with no
separator. -/
def wordsOf (cs : List Char) : List (List Char) := wordsAux cs []

/-- `SearchResult` of `src/core/data_sources.py`. -/
structure SearchResult where
  source : String
  data_type : String
  confidence : ℚ
  raw_data : Dict
  timestamp : ℤ
  metadata : Dict

/-- The recognized keys of the free-form `filters` dict carried by a
`SearchQuery` (populated from `SearchFilters.dict()` by the API layer).
`exclude_sources` / `exclude_data_types` exist in the schema and hence
in the dict, whether the engine reads them is exactly what claim C9 is
about. -/
structure QueryFilters where
  date_range : Option (Option ℤ × Option ℤ) := none
  sources : Option (List String) := none
  data_types : Option (List String) := none
  exclude_sources : Option (List String) := none
  exclude_data_types : Option (List String) := none

/-- `SearchQuery` of `src/core/search_engine.py` (the fields read by the
correlation, scoring and ranking pipeline; `date_range` and
`geographic_scope` are only read by the un-modelled query-enhancement
step). -/
structure SearchQuery where
  query_id : String
  query_type : String
  parameters : Dict
  filters : QueryFilters
  confidence_threshold : ℚ
  max_results : ℕ
  user_id : Option String := none
  timestamp : ℤ := 0

/-! ### `_levenshtein_similarity` -/

/-- Inner loop of the dynamic program of `_levenshtein_similarity`:
builds `current_row[1:]` from `previous_row`, carrying the last value
appended to `current_row`. -/
def levLoop (c1 : Char) : List Char → List ℕ → ℕ → List ℕ
  | y :: ys, pj :: prest, cur =>
      let ins := prest.headD 0 + 1
      let del := cur + 1
      let sub := pj + (if c1 = y then 0 else 1)
      let m := min ins (min del sub)
      m :: levLoop c1 ys prest m
  | _, _, _ => []

/-- One row step: `current_row = [i + 1]` then the inner loop. -/
def levRow (s2 : List Char) (prev : List ℕ) (i : ℕ) (c1 : Char) : List ℕ :=
  (i + 1) :: levLoop c1 s2 prev (i + 1)

/-- `[s, s+1, ..., s+n-1]`, Python `range` with an offset. -/
def countFrom (s : ℕ) : ℕ → List ℕ
  | 0 => []
  | n + 1 => s :: countFrom (s + 1) n

/-- Pair every element with its position, Python `enumerate`. -/
def withIdx {α : Type} : List α → ℕ → List (ℕ × α)
  | [], _ => []
  | a :: as, i => (i, a) :: withIdx as (i + 1)

/-- Last element of a list, with a default (`previous_row[-1]`). -/
def lastD : List ℕ → ℕ → ℕ
  | [], d => d
  | [x], _ => x
  | _ :: x :: rest, d => lastD (x :: rest) d

/-- Levenshtein distance, exactly the row-by-row DP of the source. -/
def levDistance (s1 s2 : List Char) : ℕ :=
  let first := countFrom 0 (s2.length + 1)
  let last := (withIdx s1 0).foldl
    (fun prev p => levRow s2 prev p.1 p.2) first
  lastD last 0

/-- `_levenshtein_similarity`: swap so the first string is the longer,
return `0.0` for an empty second string, else `1 - distance / max_len`. -/
def levenshteinSimilarity (a b : List Char) : ℚ :=
  let s1 := if a.length < b.length then b else a
  let s2 := if a.length < b.length then a else b
  if s2.length = 0 then 0
  else
    let maxLen := max s1.length s2.length
    1 - (levDistance s1 s2 : ℚ) / (maxLen : ℚ)

/-- Number of whitespace-separated words, Python `len(s.split())`. -/
def wordCount (cs : List Char) : ℕ := (wordsOf cs).length

/-- `str(value).lower().strip()` as a character list. -/
def pyLowerStrip (v : Value) : List Char :=
  trimChars (toLowerChars (pyStr v).data)

/-- `_calculate_field_similarity`.  `nlpSim` abstracts the spaCy
document similarity used when both values are multi-word. -/
def calculateFieldSimilarity (nlpSim : List Char → List Char → ℚ)
    (v1 v2 : Value) : ℚ :=
  if ¬ pyTruthy v1 ∨ ¬ pyTruthy v2 then 0
  else
    let s1 := pyLowerStrip v1
    let s2 := pyLowerStrip v2
    if s1 = s2 then 1
    else if 1 < wordCount s1 ∧ 1 < wordCount s2 then nlpSim s1 s2
    else levenshteinSimilarity s1 s2

/-- `np.mean` over rationals (callers guard against the empty list). -/
def listMean (l : List ℚ) : ℚ := l.sum / (l.length : ℚ)

/-- `_extract_comparison_fields`: the sub-dict of the four identity fields. -/
def extractComparisonFields (r : SearchResult) : Dict :=
  (["name", "email", "phone", "address"].filterMap
    (fun f => (dlookup r.raw_data f).map (fun v => (f, v))))

/-- One iteration of the field loop of `_calculate_entity_similarity`:
a similarity entry when the field is present in both field mappings. -/
def entitySimEntry (nlpSim : List Char → List Char → ℚ)
    (fields1 fields2 : Dict) (f : String) : Option ℚ :=
  match dlookup fields1 f, dlookup fields2 f with
  | some v1, some v2 => some (calculateFieldSimilarity nlpSim v1 v2)
  | _, _ => none

/-- The per-field similarity list of `_calculate_entity_similarity`:
one entry per identity field present in both results. -/
def entitySims (nlpSim : List Char → List Char → ℚ)
    (r1 r2 : SearchResult) : List ℚ :=
  ["name", "email", "phone", "address"].filterMap
    (entitySimEntry nlpSim (extractComparisonFields r1) (extractComparisonFields r2))

/-- `_calculate_entity_similarity`: average field similarity over the
identity fields present in both results, `0.0` when none is shared. -/
def calculateEntitySimilarity (nlpSim : List Char → List Char → ℚ)
    (r1 r2 : SearchResult) : ℚ :=
  if (entitySims nlpSim r1 r2).isEmpty then 0 else listMean (entitySims nlpSim r1 r2)

/-! ### `_group_results_by_entity`

Python's `groups` dict is insertion-ordered and its values are the
member lists; a group's representative is its first-inserted member
(`group_results[0]`), kept separate here so the representative is
visible by construction. -/

/-- An entity cluster: the representative (first-inserted member) and
the members appended after it, in arrival order. -/
abbrev Group := SearchResult × List SearchResult

/-- All members of a cluster, in insertion order. -/
def members (g : Group) : List SearchResult := g.1 :: g.2

/-- The selection loop of `_group_results_by_entity` over the list of
similarities to each cluster's representative: keep the best
`(group, similarity)` seen so far, updating when the current similarity
strictly exceeds both the best so far and the `0.8` threshold. -/
def findBest : List ℚ → ℕ → Option ℕ × ℚ → Option ℕ × ℚ
  | [], _, best => best
  | s :: rest, i, best =>
      findBest rest (i + 1)
        (if best.2 < s ∧ (0.8 : ℚ) < s then (some i, s) else best)

/-- `groups[best_group].append(result)`: append `r` to the member list
of the cluster at position `j`. -/
def appendToGroup (r : SearchResult) : ℕ → List Group → List Group
  | _, [] => []
  | 0, g :: gs => (g.1, g.2 ++ [r]) :: gs
  | n + 1, g :: gs => g :: appendToGroup r n gs

/-- The similarity of an incoming result to every cluster's
representative, in cluster order. -/
def groupSims (nlpSim : List Char → List Char → ℚ)
    (gs : List Group) (r : SearchResult) : List ℚ :=
  gs.map (fun g => calculateEntitySimilarity nlpSim r g.1)

/-- One iteration of `_group_results_by_entity`: place `result` into the
best matching cluster, or start a new singleton cluster. -/
def groupStep (nlpSim : List Char → List Char → ℚ)
    (gs : List Group) (r : SearchResult) : List Group :=
  match (findBest (groupSims nlpSim gs r) 0 (none, 0)).1 with
  | some i => appendToGroup r i gs
  | none => gs ++ [(r, [])]

/-- `_group_results_by_entity`: greedy single pass over the results.
The cluster at position `i` carries the dict key `f"entity_{i}"`. -/
def groupResultsByEntity (nlpSim : List Char → List Char → ℚ)
    (results : List SearchResult) : List Group :=
  results.foldl (groupStep nlpSim) []

/-! ### `_merge_entity_data`, `_process_entity_group`, `_process_results` -/

/-- Per-key merge policy of `_merge_entity_data` for an existing key:
concatenate when both values are lists, shallow-merge when both are
dicts (new keys win), else first write wins. -/
def mergeValue : Value → Value → Value
  | .VList xs, .VList ys => .VList (xs ++ ys)
  | .VDict xs, .VDict ys =>
      .VDict (ys.foldl (fun acc p => dictSet acc p.1 p.2) xs)
  | old, _ => old

/-- `_merge_entity_data`: fold every member's `raw_data` into one dict. -/
def mergeEntityData (results : List SearchResult) : Dict :=
  results.foldl
    (fun merged r =>
      r.raw_data.foldl
        (fun m p =>
          match dlookup m p.1 with
          | none => m ++ [(p.1, p.2)]
          | some old => dictSet m p.1 (mergeValue old p.2))
        merged)
    []

/-- The synthetic "correlated entity" result built by
`_process_entity_group` for one cluster. -/
def syntheticResult (entityId : String) (group : List SearchResult)
    (now : ℤ) : SearchResult :=
  { source := "entity_correlation"
    data_type := "correlated_entity"
    confidence := listMean (group.map (fun r => r.confidence))
    raw_data := mergeEntityData group
    timestamp := now
    metadata :=
      [("entity_id", .VStr entityId),
       ("source_count", .VNum (group.length : ℚ)),
       ("sources", .VList (group.map (fun r => .VStr r.source))),
       ("correlation_method", .VStr "ai_enhanced")] }

/-- The correlation annotations `_process_entity_group` writes into each
member's metadata. -/
def tagMember (entityId : String) (corrConfidence : ℚ)
    (r : SearchResult) : SearchResult :=
  let tagged := dictSet r.metadata "correlated_entity_id" (.VStr entityId)
  { r with metadata := dictSet tagged "correlation_confidence" (.VNum corrConfidence) }

/-- `_process_entity_group`: the synthetic merged result followed by the
annotated members.  The Python method also receives the query but never
reads it. -/
def processEntityGroup (entityId : String) (group : List SearchResult)
    (now : ℤ) : List SearchResult :=
  let enhanced := syntheticResult entityId group now
  enhanced :: group.map (tagMember entityId enhanced.confidence)

/-- `_process_results`: cluster, then emit every cluster's synthetic
result and annotated members, in cluster-creation order. -/
def processResults (nlpSim : List Char → List Char → ℚ)
    (results : List SearchResult) (now : ℤ) : List SearchResult :=
  (withIdx (groupResultsByEntity nlpSim results) 0).flatMap
    (fun p => processEntityGroup ("entity_" ++ toString p.1) (members p.2) now)

/-! ### Scoring: `_assess_data_quality`, `_assess_data_consistency`,
`_assess_relevance`, `_assess_source_reliability`,
`_calculate_ai_confidence`, `_apply_ai_scoring` -/

/-- The name/email consistency check: conflict when the email has a
local part (`email.split('@')[0]` when `'@' in email`, else empty) and
the lowered name is not a substring of its lowered form. -/
def nameEmailConflict (data : Dict) : Bool :=
  let email := (pyStr ((dlookup data "email").getD (.VStr ""))).data
  let emailName :=
    if email.any (fun c => c = '@') then email.takeWhile (fun c => c ≠ '@') else []
  ¬ emailName.isEmpty &&
    ¬ charsIn (toLowerChars (pyStr ((dlookup data "name").getD (.VStr ""))).data)
        (toLowerChars emailName)

/-- The regex `^\+?[\d\s\-\(\)]+$` of the phone consistency check. -/
def phoneShaped (s : String) : Bool :=
  let cs := match s.data with
    | '+' :: rest => rest
    | cs => cs
  ¬ cs.isEmpty &&
    cs.all (fun c => c.isDigit || c.isWhitespace || c = '-' || c = '(' || c = ')')

/-- `_assess_data_consistency`: `1 - conflicts / total_checks` over the
applicable checks, `0.0` when no check applies. -/
def assessDataConsistency (data : Dict) : ℚ :=
  let check1 : ℕ × ℕ :=
    if hasKey data "name" && hasKey data "email" then
      ((if nameEmailConflict data then 1 else 0), 1)
    else (0, 0)
  let check2 : ℕ × ℕ :=
    if hasKey data "phone" then
      ((if ¬ phoneShaped (pyStr ((dlookup data "phone").getD (.VStr ""))) then 1 else 0), 1)
    else (0, 0)
  let conflicts := check1.1 + check2.1
  let totalChecks := check1.2 + check2.2
  if 0 < totalChecks then 1 - (conflicts : ℚ) / (totalChecks : ℚ) else 0

/-- The completeness fraction of `_assess_data_quality`: how many of
the four identity fields are present. -/
def completenessOf (r : SearchResult) : ℚ :=
  ((["name", "email", "phone", "address"].filter
    (fun f => hasKey r.raw_data f)).length : ℚ) / 4

/-- The freshness term of `_assess_data_quality`:
`max(0, 1 - age.days / 365)` when a datetime `timestamp` field exists,
else no contribution.  A non-datetime `timestamp` value would raise in
Python; the model only assigns freshness to datetime values. -/
def freshnessOf (r : SearchResult) (now : ℤ) : ℚ :=
  match dlookup r.raw_data "timestamp" with
  | some (.VTime ts) => max 0 (1 - ((now - ts : ℤ) : ℚ) / 365)
  | _ => 0

/-- `_assess_data_quality`: `0.4·completeness + 0.3·freshness +
0.3·consistency`. -/
def assessDataQuality (r : SearchResult) (now : ℤ) : ℚ :=
  completenessOf r * 0.4 + freshnessOf r now * 0.3 +
    assessDataConsistency r.raw_data * 0.3

/-- `_assess_relevance`: exact-match ratio weighted `0.6` plus
substring-either-direction ratio weighted `0.4`, over the identity
fields present in both the query parameters and the result data. -/
def assessRelevance (r : SearchResult) (q : SearchQuery) : ℚ :=
  let fieldsBoth := ["name", "email", "phone", "address"].filter
    (fun f => hasKey q.parameters f && hasKey r.raw_data f)
  let qv := fun f => toLowerChars (pyStr ((dlookup q.parameters f).getD (.VStr ""))).data
  let rv := fun f => toLowerChars (pyStr ((dlookup r.raw_data f).getD (.VStr ""))).data
  let totalFields := fieldsBoth.length
  let exactMatches := (fieldsBoth.filter (fun f => qv f == rv f)).length
  let looseMatches :=
    (fieldsBoth.filter (fun f => charsIn (qv f) (rv f) || charsIn (rv f) (qv f))).length
  (if 0 < totalFields then (exactMatches : ℚ) / (totalFields : ℚ) * 0.6 else 0) +
    (if 0 < totalFields then (looseMatches : ℚ) / (totalFields : ℚ) * 0.4 else 0)

/-- `_assess_source_reliability`: static lookup table, default `0.5`. -/
def assessSourceReliability (source : String) : ℚ :=
  if source = "court_records" then 0.95
  else if source = "property_records" then 0.90
  else if source = "government_apis" then 0.85
  else if source = "business_records" then 0.80
  else if source = "phone_directories" then 0.75
  else if source = "social_media" then 0.60
  else if source = "news_media" then 0.70
  else if source = "entity_correlation" then 0.85
  else 0.50

/-- `_calculate_ai_confidence`: the composite score
`0.3·quality + 0.4·relevance + 0.3·reliability`, clamped at `1.0`. -/
def calculateAiConfidence (r : SearchResult) (q : SearchQuery) (now : ℤ) : ℚ :=
  min (assessDataQuality r now * 0.3 + assessRelevance r q * 0.4 +
    assessSourceReliability r.source * 0.3) 1

/-- `_apply_ai_scoring`: blend each result's confidence with its
composite score and record the scoring metadata. -/
def applyAiScoring (results : List SearchResult) (q : SearchQuery)
    (now : ℤ) : List SearchResult :=
  results.map (fun r =>
    let aiScore := calculateAiConfidence r q now
    let scoredMeta := dictSet r.metadata "ai_score" (.VNum aiScore)
    { r with
      confidence := (r.confidence + aiScore) / 2
      metadata := dictSet scoredMeta "ai_scoring_method" (.VStr "multi_factor_analysis") })

/-! ### `_filter_and_rank_results` -/

/-- `x.metadata.get('ai_score', 0)` as a number (a non-numeric
`ai_score` would make Python's tuple comparison raise; the model reads
it as `0`). -/
def metaAiScore (r : SearchResult) : ℚ :=
  match dlookup r.metadata "ai_score" with
  | some (.VNum q) => q
  | _ => 0

/-- The sort key `(x.confidence, x.metadata.get('ai_score', 0))`. -/
def rankKey (r : SearchResult) : ℚ × ℚ := (r.confidence, metaAiScore r)

/-- Lexicographic `≤` on sort keys, Python tuple comparison. -/
def keyLe (a b : ℚ × ℚ) : Prop := a.1 < b.1 ∨ (a.1 = b.1 ∧ a.2 ≤ b.2)

instance : DecidablePred (fun p : (ℚ × ℚ) × (ℚ × ℚ) => keyLe p.1 p.2) :=
  fun p => by unfold keyLe; infer_instance

instance keyLeDec (a b : ℚ × ℚ) : Decidable (keyLe a b) := by
  unfold keyLe; infer_instance

/-- Stable descending insertion: place `x` before the first element
whose key does not exceed `x`'s, so earlier elements win ties. -/
def insertDesc (x : SearchResult) : List SearchResult → List SearchResult
  | [] => [x]
  | y :: ys =>
      if keyLe (rankKey y) (rankKey x) then x :: y :: ys
      else y :: insertDesc x ys

/-- `list.sort(key=..., reverse=True)`: a stable descending sort by
`rankKey` (Python's sort is stable also with `reverse=True`). -/
def sortDesc (l : List SearchResult) : List SearchResult :=
  l.foldr insertDesc []

/-- `_filter_and_rank_results`: confidence-threshold filter, stable
descending sort, truncation (skipped when `max_results` is falsy). -/
def filterAndRankResults (results : List SearchResult)
    (q : SearchQuery) : List SearchResult :=
  let filtered := results.filter (fun r => q.confidence_threshold ≤ r.confidence)
  let sorted := sortDesc filtered
  if q.max_results ≠ 0 then sorted.take q.max_results else sorted

/-! ### `_apply_query_filters` -/

/-- `_apply_query_filters`: sequentially apply the date-range filter,
the source allow-list and the data-type allow-list.  No other key of
the filters dict is read. -/
def applyQueryFilters (results : List SearchResult)
    (filters : QueryFilters) : List SearchResult :=
  let afterDate :=
    match filters.date_range with
    | some (startDate, endDate) =>
        if startDate.isSome || endDate.isSome then
          results.filter (fun r =>
            (startDate.all (fun s => s ≤ r.timestamp)) &&
            (endDate.all (fun e => r.timestamp ≤ e)))
        else results
    | none => results
  let afterSources :=
    match filters.sources with
    | some allowed => afterDate.filter (fun r => allowed.contains r.source)
    | none => afterDate
  match filters.data_types with
  | some allowed => afterSources.filter (fun r => allowed.contains r.data_type)
  | none => afterSources

/-! ### Concrete inputs used by the witnesses and counterexamples -/

/-- A trivial stand-in for the spaCy model; no concrete input below
ever reaches the multi-word branch that would consult it. -/
def nlpZero : List Char → List Char → ℚ := fun _ _ => 0

/-- A result with the given source, raw data and provider confidence. -/
def mkResult (src : String) (raw : Dict) (conf : ℚ) : SearchResult :=
  { source := src, data_type := "personal_info", confidence := conf,
    raw_data := raw, timestamp := 0, metadata := [] }

/-- A query with the given parameters, threshold and cap. -/
def mkQuery (params : Dict) (threshold : ℚ) (maxResults : ℕ) : SearchQuery :=
  { query_id := "q", query_type := "person", parameters := params,
    filters := {}, confidence_threshold := threshold, max_results := maxResults }

/-! ### Derived notions named by the spec -/

/-- Blended confidence (spec glossary): the average of a result's
provider-reported confidence and the engine's composite score; this is
the value `_apply_ai_scoring` stores back into the result. -/
def blendedConfidence (r : SearchResult) (q : SearchQuery) (now : ℤ) : ℚ :=
  (r.confidence + calculateAiConfidence r q now) / 2

/-- The predicate `_apply_query_filters` effectively keeps: inside the
date range when one is given, source in the allow-list when one is
given, data type in the allow-list when one is given.  (The factors are
conjoined in the order the sequential filters compose.) -/
def filterPass (filters : QueryFilters) (r : SearchResult) : Bool :=
  (match filters.data_types with
   | some allowed => allowed.contains r.data_type
   | none => true) &&
  ((match filters.sources with
    | some allowed => allowed.contains r.source
    | none => true) &&
   (match filters.date_range with
    | some (s, e) =>
        if s.isSome || e.isSome then
          (s.all (fun d => d ≤ r.timestamp)) && (e.all (fun d => r.timestamp ≤ d))
        else true
    | none => true))

/-- The timestamp of a result's raw data does not lie in the future of
the scoring time (rules out the freshness anomaly of claim C3). -/
def tsOk (r : SearchResult) (now : ℤ) : Prop :=
  ∀ ts : ℤ, dlookup r.raw_data "timestamp" = some (.VTime ts) → ts ≤ now

/-! ### Bounds on the scoring sub-scores -/

lemma assessRelevance_nonneg (r : SearchResult) (q : SearchQuery) :
    0 ≤ assessRelevance r q := by
  unfold assessRelevance
  dsimp only
  split_ifs with h
  · positivity
  · norm_num

lemma ratioSum_le_one (e lo t : ℕ) (he : e ≤ t) (hl : lo ≤ t) :
    (if 0 < t then (e : ℚ) / (t : ℚ) * 0.6 else 0) +
      (if 0 < t then (lo : ℚ) / (t : ℚ) * 0.4 else 0) ≤ 1 := by
  split_ifs with h
  · have ht : (0 : ℚ) < (t : ℚ) := by exact_mod_cast h
    have h1 : (e : ℚ) / (t : ℚ) ≤ 1 := (div_le_one ht).mpr (by exact_mod_cast he)
    have h2 : (lo : ℚ) / (t : ℚ) ≤ 1 := (div_le_one ht).mpr (by exact_mod_cast hl)
    nlinarith
  · norm_num

lemma assessRelevance_le_one (r : SearchResult) (q : SearchQuery) :
    assessRelevance r q ≤ 1 := by
  unfold assessRelevance
  dsimp only
  exact ratioSum_le_one _ _ _ (List.length_filter_le _ _) (List.length_filter_le _ _)

lemma assessSourceReliability_nonneg (s : String) :
    0 ≤ assessSourceReliability s := by
  unfold assessSourceReliability
  split_ifs <;> norm_num

lemma assessSourceReliability_le_one (s : String) :
    assessSourceReliability s ≤ 1 := by
  unfold assessSourceReliability
  split_ifs <;> norm_num

lemma assessDataConsistency_nonneg (d : Dict) :
    0 ≤ assessDataConsistency d := by
  unfold assessDataConsistency
  dsimp only
  split_ifs <;> norm_num

lemma assessDataConsistency_le_one (d : Dict) :
    assessDataConsistency d ≤ 1 := by
  unfold assessDataConsistency
  dsimp only
  split_ifs <;> norm_num

lemma completenessOf_nonneg (r : SearchResult) : 0 ≤ completenessOf r := by
  unfold completenessOf; positivity

lemma completenessOf_le_one (r : SearchResult) : completenessOf r ≤ 1 := by
  unfold completenessOf
  rw [div_le_one (by norm_num)]
  have := List.length_filter_le (fun f => hasKey r.raw_data f)
    ["name", "email", "phone", "address"]
  exact_mod_cast le_trans this (by norm_num)

lemma freshnessOf_nonneg (r : SearchResult) (now : ℤ) :
    0 ≤ freshnessOf r now := by
  unfold freshnessOf
  rcases dlookup r.raw_data "timestamp" with _ | v
  · norm_num
  · rcases v <;> simp [le_max_left]

lemma freshnessOf_le_one (r : SearchResult) (now : ℤ) (h : tsOk r now) :
    freshnessOf r now ≤ 1 := by
  unfold freshnessOf
  rcases hts : dlookup r.raw_data "timestamp" with _ | v
  · norm_num
  · rcases v with s | n | t | l | d <;> try norm_num
    have hle := h t hts
    apply div_nonneg _ (by norm_num)
    rw [sub_nonneg]
    exact_mod_cast hle

lemma assessDataQuality_nonneg (r : SearchResult) (now : ℤ) :
    0 ≤ assessDataQuality r now := by
  unfold assessDataQuality
  have h1 := completenessOf_nonneg r
  have h2 := freshnessOf_nonneg r now
  have h3 := assessDataConsistency_nonneg r.raw_data
  nlinarith

lemma assessDataQuality_le_one (r : SearchResult) (now : ℤ)
    (h : tsOk r now) : assessDataQuality r now ≤ 1 := by
  unfold assessDataQuality
  have h1 := completenessOf_le_one r
  have h2 := freshnessOf_le_one r now h
  have h3 := assessDataConsistency_le_one r.raw_data
  have h4 := completenessOf_nonneg r
  have h5 := freshnessOf_nonneg r now
  have h6 := assessDataConsistency_nonneg r.raw_data
  nlinarith

/-! ### Claim C3 — composite-score formula and sub-score ranges -/

/-- C3 (amended): the composite score is
`min(0.3·quality + 0.4·relevance + 0.3·reliability, 1.0)`; the
relevance and reliability sub-scores always lie in `[0,1]`, and the
quality sub-score lies in `[0,1]` whenever the result's raw `timestamp`
is not in the future of the scoring time (a future timestamp makes the
freshness term, hence quality, exceed `1`); after scoring, every
result's stored confidence is `(pre-scoring confidence + composite)/2`. -/
theorem claim_C3_amended (r : SearchResult) (q : SearchQuery) (now : ℤ)
    (l : List SearchResult) (h : tsOk r now) :
    calculateAiConfidence r q now =
      min (assessDataQuality r now * 0.3 + assessRelevance r q * 0.4 +
        assessSourceReliability r.source * 0.3) 1 ∧
    (0 ≤ assessDataQuality r now ∧ assessDataQuality r now ≤ 1) ∧
    (0 ≤ assessRelevance r q ∧ assessRelevance r q ≤ 1) ∧
    (0 ≤ assessSourceReliability r.source ∧ assessSourceReliability r.source ≤ 1) ∧
    (applyAiScoring l q now).map (fun x => x.confidence) =
      l.map (fun x => (x.confidence + calculateAiConfidence x q now) / 2) := by
  refine ⟨rfl,
    ⟨assessDataQuality_nonneg r now, assessDataQuality_le_one r now h⟩,
    ⟨assessRelevance_nonneg r q, assessRelevance_le_one r q⟩,
    ⟨assessSourceReliability_nonneg r.source, assessSourceReliability_le_one r.source⟩,
    ?_⟩
  simp [applyAiScoring, List.map_map, Function.comp]

/-- A result whose raw timestamp lies ten years in the future of the
scoring time (`now = 0`, capture day `3650`). -/
def c3futureResult : SearchResult :=
  mkResult "court_records" [("timestamp", .VTime 3650)] (1/2)

/-- C3 counterexample: the quality sub-score of a future-dated result
is `3.3`, outside `[0,1]`, refuting "each sub-score in [0,1]". -/
theorem claim_C3_counterexample :
    assessDataQuality c3futureResult 0 = 33/10 ∧
    ¬ (assessDataQuality c3futureResult 0 ≤ 1) := by
  have hf : freshnessOf c3futureResult 0 = 11 := by
    have hts : dlookup c3futureResult.raw_data "timestamp" =
        some (.VTime 3650) := rfl
    unfold freshnessOf
    rw [hts]
    dsimp only
    rw [max_eq_right (by push_cast; norm_num)]
    push_cast; norm_num
  have hc : completenessOf c3futureResult = 0 := by
    simp +decide [completenessOf, hasKey, c3futureResult, mkResult]
  have hcons : assessDataConsistency c3futureResult.raw_data = 0 := by
    simp +decide [assessDataConsistency, hasKey, c3futureResult, mkResult]
  have hq : assessDataQuality c3futureResult 0 = 33/10 := by
    rw [assessDataQuality, hf, hc, hcons]; norm_num
  exact ⟨hq, by rw [hq]; norm_num⟩

/-- C3 witness: the amended claim instantiated at a concrete result
with an empty (hence non-future) raw mapping. -/
theorem claim_C3_witness :
    tsOk (mkResult "x" [] 1) 0 ∧
    (calculateAiConfidence (mkResult "x" [] 1) (mkQuery [] (7/10) 100) 0 =
      min (assessDataQuality (mkResult "x" [] 1) 0 * 0.3 +
        assessRelevance (mkResult "x" [] 1) (mkQuery [] (7/10) 100) * 0.4 +
        assessSourceReliability (mkResult "x" [] 1).source * 0.3) 1 ∧
    (0 ≤ assessDataQuality (mkResult "x" [] 1) 0 ∧
      assessDataQuality (mkResult "x" [] 1) 0 ≤ 1) ∧
    (0 ≤ assessRelevance (mkResult "x" [] 1) (mkQuery [] (7/10) 100) ∧
      assessRelevance (mkResult "x" [] 1) (mkQuery [] (7/10) 100) ≤ 1) ∧
    (0 ≤ assessSourceReliability (mkResult "x" [] 1).source ∧
      assessSourceReliability (mkResult "x" [] 1).source ≤ 1) ∧
    (applyAiScoring [] (mkQuery [] (7/10) 100) 0).map (fun x => x.confidence) =
      ([] : List SearchResult).map
        (fun x => (x.confidence + calculateAiConfidence x (mkQuery [] (7/10) 100) 0) / 2)) := by
  have h : tsOk (mkResult "x" [] 1) 0 := by
    intro ts hts
    simp [dlookup, mkResult] at hts
  exact ⟨h, claim_C3_amended (mkResult "x" [] 1) (mkQuery [] (7/10) 100) 0 [] h⟩

/-! ### Claim C5 — consistency score of sparse records -/

/-- C5 (amended): when no internal-consistency check applies (no
name-and-email pair and no phone field), `_assess_data_consistency`
returns `0.0`, not full score — sparse records lose the entire
consistency weight. -/
theorem claim_C5_corrected (d : Dict)
    (h1 : (hasKey d "name" && hasKey d "email") = false)
    (h2 : hasKey d "phone" = false) :
    assessDataConsistency d = 0 := by
  unfold assessDataConsistency
  simp [h1, h2]

/-- C5 counterexample: the empty record has no applicable checks, yet
its consistency sub-score is `0`, not the claimed full score `1.0`. -/
theorem claim_C5_counterexample :
    (hasKey ([] : Dict) "name" && hasKey ([] : Dict) "email") = false ∧
    hasKey ([] : Dict) "phone" = false ∧
    assessDataConsistency [] = 0 ∧ (0 : ℚ) ≠ 1 := by
  refine ⟨rfl, rfl, ?_, by norm_num⟩
  simp +decide [assessDataConsistency, hasKey]

/-- C5 witness: the amended claim instantiated at the empty record. -/
theorem claim_C5_witness :
    (hasKey ([] : Dict) "name" && hasKey ([] : Dict) "email") = false ∧
    hasKey ([] : Dict) "phone" = false ∧
    assessDataConsistency [] = 0 :=
  ⟨rfl, rfl, claim_C5_corrected [] rfl rfl⟩

/-! ### Claim C8 — monotonicity of scoring -/

/-- C8 (amended): the blended confidence is monotone in the
provider-reported confidence — raising a result's confidence without
changing anything else never decreases its blended confidence.  (By
the C8 counterexample, adding a raw field can decrease it, so
monotonicity in the field mapping fails.) -/
theorem claim_C8_amended (r : SearchResult) (q : SearchQuery) (now : ℤ)
    (c c' : ℚ) (h : c ≤ c') :
    blendedConfidence { r with confidence := c } q now ≤
      blendedConfidence { r with confidence := c' } q now := by
  have hai : calculateAiConfidence { r with confidence := c } q now =
      calculateAiConfidence { r with confidence := c' } q now := rfl
  unfold blendedConfidence
  rw [hai]
  dsimp only
  linarith

/-- C8 witness: monotonicity applied at confidences `0 ≤ 1`. -/
theorem claim_C8_witness :
    (0 : ℚ) ≤ 1 ∧
    blendedConfidence { mkResult "x" [] 0 with confidence := 0 }
        (mkQuery [] (7/10) 100) 0 ≤
      blendedConfidence { mkResult "x" [] 0 with confidence := 1 }
        (mkQuery [] (7/10) 100) 0 :=
  ⟨by norm_num,
    claim_C8_amended (mkResult "x" [] 0) (mkQuery [] (7/10) 100) 0 0 1 (by norm_num)⟩

/-- The query of the C8 counterexample (no parameters). -/
def c8query : SearchQuery := mkQuery [] (7/10) 100

/-- A result with a consistent name/email pair. -/
def c8base : SearchResult :=
  mkResult "court_records"
    [("name", .VStr "john"), ("email", .VStr "john@x.com")] (1/2)

/-- The same result with one added field: a malformed phone number. -/
def c8ext : SearchResult :=
  mkResult "court_records"
    [("name", .VStr "john"), ("email", .VStr "john@x.com"),
     ("phone", .VStr "abc")] (1/2)

lemma c8base_blend : blendedConfidence c8base c8query 0 = 187/400 := by
  have hcomp : completenessOf c8base = 1/2 := by
    simp +decide [completenessOf, hasKey, c8base, mkResult]
    norm_num
  have hfresh : freshnessOf c8base 0 = 0 := rfl
  have hcons : assessDataConsistency c8base.raw_data = 1 := by
    simp +decide [assessDataConsistency, hasKey, c8base, mkResult]
  have hrel : assessRelevance c8base c8query = 0 := by
    simp +decide [assessRelevance, hasKey, c8query, mkQuery, c8base, mkResult]
  have hai : calculateAiConfidence c8base c8query 0 = 87/200 := by
    rw [calculateAiConfidence, assessDataQuality, hcomp, hfresh, hcons, hrel]
    have hsr : assessSourceReliability c8base.source = 0.95 := rfl
    rw [hsr]
    rw [min_eq_left (by norm_num)]
    norm_num
  rw [blendedConfidence, hai]
  norm_num [c8base, mkResult]

lemma c8ext_blend : blendedConfidence c8ext c8query 0 = 23/50 := by
  have hcomp : completenessOf c8ext = 3/4 := by
    simp +decide [completenessOf, hasKey, c8ext, mkResult]
  have hfresh : freshnessOf c8ext 0 = 0 := rfl
  have hcons : assessDataConsistency c8ext.raw_data = 1/2 := by
    simp +decide [assessDataConsistency, hasKey, c8ext, mkResult]
    norm_num
  have hrel : assessRelevance c8ext c8query = 0 := by
    simp +decide [assessRelevance, hasKey, c8query, mkQuery, c8ext, mkResult]
  have hai : calculateAiConfidence c8ext c8query 0 = 21/50 := by
    rw [calculateAiConfidence, assessDataQuality, hcomp, hfresh, hcons, hrel]
    have hsr : assessSourceReliability c8ext.source = 0.95 := rfl
    rw [hsr]
    rw [min_eq_left (by norm_num)]
    norm_num
  rw [blendedConfidence, hai]
  norm_num [c8ext, mkResult]

/-- C8 counterexample: adding the raw field `phone = "abc"` to a result
— provider confidence and everything else unchanged — strictly
decreases its blended confidence (`0.46 < 0.4675`), because the
malformed phone fails the consistency check and costs more than the
completeness gain.  This refutes "adding a field never decreases the
blended confidence". -/
theorem claim_C8_counterexample :
    c8ext.raw_data = c8base.raw_data ++ [("phone", .VStr "abc")] ∧
    c8ext.confidence = c8base.confidence ∧
    c8ext.source = c8base.source ∧
    c8ext.data_type = c8base.data_type ∧
    c8ext.timestamp = c8base.timestamp ∧
    c8ext.metadata = c8base.metadata ∧
    blendedConfidence c8ext c8query 0 < blendedConfidence c8base c8query 0 := by
  refine ⟨rfl, rfl, rfl, rfl, rfl, rfl, ?_⟩
  rw [c8base_blend, c8ext_blend]
  norm_num

/-! ### Claim C9 — the coordinator's filter pass -/

/-- C9 (amended): `_apply_query_filters` keeps exactly the results that
pass the date-range bounds (when a date range with a start or end is
present), whose source is in the source allow-list (when present), and
whose data type is in the data-type allow-list (when present).  The
deny-lists (`exclude_sources`, `exclude_data_types`) are never read, so
they have no effect on the outcome. -/
theorem claim_C9_amended (rs : List SearchResult) (f : QueryFilters) :
    applyQueryFilters rs f = rs.filter (fun r => filterPass f r) ∧
    (∀ es, applyQueryFilters rs { f with exclude_sources := es } =
      applyQueryFilters rs f) ∧
    (∀ eds, applyQueryFilters rs { f with exclude_data_types := eds } =
      applyQueryFilters rs f) := by
  refine ⟨?_, fun es => rfl, fun eds => rfl⟩
  rcases f with ⟨dr, so, dt, es, edt⟩
  rcases dr with _ | ⟨s, e⟩
  · rcases so <;> rcases dt <;>
      simp [applyQueryFilters, filterPass, List.filter_filter]
  · rcases s <;> rcases e <;> rcases so <;> rcases dt <;>
      simp [applyQueryFilters, filterPass, List.filter_filter]

/-- The C9 counterexample filter set: a deny-list only. -/
def c9filters : QueryFilters := { exclude_sources := some ["social_media"] }

/-- A result from the denied source. -/
def c9result : SearchResult := mkResult "social_media" [] 1

/-- C9 counterexample: a result whose source is in the deny-list
survives `_apply_query_filters` untouched, refuting "removes every
result whose source is in the deny-list (excluded sources)". -/
theorem claim_C9_counterexample :
    c9filters.exclude_sources = some ["social_media"] ∧
    c9result.source = "social_media" ∧
    applyQueryFilters [c9result] c9filters = [c9result] :=
  ⟨rfl, rfl, rfl⟩

/-! ### Claim C1 — filter, stable descending sort, truncation -/

lemma keyLe_refl (a : ℚ × ℚ) : keyLe a a := Or.inr ⟨rfl, le_refl _⟩

lemma keyLe_trans {a b c : ℚ × ℚ} (h1 : keyLe a b) (h2 : keyLe b c) : keyLe a c := by
  rcases h1 with h1 | ⟨h1, h1'⟩ <;> rcases h2 with h2 | ⟨h2, h2'⟩
  · exact Or.inl (lt_trans h1 h2)
  · exact Or.inl (h2 ▸ h1)
  · exact Or.inl (h1 ▸ h2)
  · exact Or.inr ⟨h1.trans h2, h1'.trans h2'⟩

lemma keyLe_total (a b : ℚ × ℚ) : keyLe a b ∨ keyLe b a := by
  rcases lt_trichotomy a.1 b.1 with h | h | h
  · exact Or.inl (Or.inl h)
  · rcases le_total a.2 b.2 with h2 | h2
    · exact Or.inl (Or.inr ⟨h, h2⟩)
    · exact Or.inr (Or.inr ⟨h.symm, h2⟩)
  · exact Or.inr (Or.inl h)

/-- Descending sortedness by the ranking key. -/
def SortedDesc (l : List SearchResult) : Prop :=
  List.Pairwise (fun x y => keyLe (rankKey y) (rankKey x)) l

lemma insertDesc_perm (x : SearchResult) (l : List SearchResult) :
    (insertDesc x l).Perm (x :: l) := by
  induction l with
  | nil => exact List.Perm.refl _
  | cons y ys ih =>
      unfold insertDesc
      split_ifs
      · exact List.Perm.refl _
      · exact (List.Perm.cons y ih).trans (List.Perm.swap x y ys)

lemma sortDesc_perm (l : List SearchResult) : (sortDesc l).Perm l := by
  induction l with
  | nil => exact List.Perm.refl _
  | cons a l ih =>
      have : sortDesc (a :: l) = insertDesc a (sortDesc l) := rfl
      rw [this]
      exact (insertDesc_perm a (sortDesc l)).trans (List.Perm.cons a ih)

lemma insertDesc_sorted (x : SearchResult) (l : List SearchResult)
    (h : SortedDesc l) : SortedDesc (insertDesc x l) := by
  unfold SortedDesc at h ⊢
  induction l with
  | nil => simp [insertDesc]
  | cons y ys ih =>
      obtain ⟨hpy, hys⟩ := List.pairwise_cons.mp h
      unfold insertDesc
      split_ifs with hc
      · refine List.pairwise_cons.mpr ⟨?_, List.pairwise_cons.mpr ⟨hpy, hys⟩⟩
        intro z hz
        rcases List.mem_cons.mp hz with hz | hz
        · exact hz ▸ hc
        · exact keyLe_trans (hpy z hz) hc
      · rcases keyLe_total (rankKey y) (rankKey x) with ht | ht
        · exact absurd ht hc
        · refine List.pairwise_cons.mpr ⟨?_, ih hys⟩
          intro z hz
          rcases List.mem_cons.mp ((insertDesc_perm x ys).mem_iff.mp hz) with hz' | hz'
          · exact hz' ▸ ht
          · exact hpy z hz'

lemma sortDesc_sorted (l : List SearchResult) : SortedDesc (sortDesc l) := by
  induction l with
  | nil => exact List.Pairwise.nil
  | cons a l ih => exact insertDesc_sorted a (sortDesc l) ih

lemma insertDesc_filter_eq (x : SearchResult) (l : List SearchResult) (k : ℚ × ℚ)
    (hx : rankKey x = k) :
    (insertDesc x l).filter (fun r => decide (rankKey r = k)) =
      x :: l.filter (fun r => decide (rankKey r = k)) := by
  induction l with
  | nil => simp [insertDesc, hx]
  | cons y ys ih =>
      unfold insertDesc
      split_ifs with hc
      · simp [hx]
      · have hyk : rankKey y ≠ k := by
          intro hyk
          exact hc (hyk ▸ hx ▸ keyLe_refl k)
        simp [hyk, ih]

lemma insertDesc_filter_ne (x : SearchResult) (l : List SearchResult) (k : ℚ × ℚ)
    (hx : rankKey x ≠ k) :
    (insertDesc x l).filter (fun r => decide (rankKey r = k)) =
      l.filter (fun r => decide (rankKey r = k)) := by
  induction l with
  | nil => simp [insertDesc, hx]
  | cons y ys ih =>
      unfold insertDesc
      split_ifs with hc
      · simp [hx]
      · by_cases hyk : rankKey y = k <;> simp [hyk, ih]

/-- Stability of the ranking sort: within every key class the sorted
order is the original order. -/
lemma sortDesc_stable (l : List SearchResult) (k : ℚ × ℚ) :
    (sortDesc l).filter (fun r => decide (rankKey r = k)) =
      l.filter (fun r => decide (rankKey r = k)) := by
  induction l with
  | nil => rfl
  | cons a l ih =>
      have hs : sortDesc (a :: l) = insertDesc a (sortDesc l) := rfl
      rw [hs]
      by_cases ha : rankKey a = k
      · rw [insertDesc_filter_eq a (sortDesc l) k ha, ih]
        simp [ha]
      · rw [insertDesc_filter_ne a (sortDesc l) k ha, ih]
        simp [ha]

/-- C1: `_filter_and_rank_results` returns exactly the stably
descending-sorted confidence-threshold survivors truncated to
`max_results`; hence every returned confidence meets the threshold, the
count respects the cap, the output is sorted descending by
`(confidence, ai_score)`, the sort permutes the survivors, and results
with equal keys keep their original relative order. -/
theorem claim_C1 (results : List SearchResult) (q : SearchQuery)
    (h : 1 ≤ q.max_results) :
    filterAndRankResults results q =
      (sortDesc (results.filter
        (fun r => q.confidence_threshold ≤ r.confidence))).take q.max_results ∧
    (∀ r ∈ filterAndRankResults results q, q.confidence_threshold ≤ r.confidence) ∧
    (filterAndRankResults results q).length ≤ q.max_results ∧
    SortedDesc (filterAndRankResults results q) ∧
    (sortDesc (results.filter
      (fun r => q.confidence_threshold ≤ r.confidence))).Perm
      (results.filter (fun r => q.confidence_threshold ≤ r.confidence)) ∧
    (∀ k, (sortDesc (results.filter
        (fun r => q.confidence_threshold ≤ r.confidence))).filter
          (fun r => decide (rankKey r = k)) =
      (results.filter
        (fun r => q.confidence_threshold ≤ r.confidence)).filter
          (fun r => decide (rankKey r = k))) := by
  have heq : filterAndRankResults results q =
      (sortDesc (results.filter
        (fun r => q.confidence_threshold ≤ r.confidence))).take q.max_results := by
    unfold filterAndRankResults
    rw [if_pos (by omega : q.max_results ≠ 0)]
  refine ⟨heq, ?_, ?_, ?_, sortDesc_perm _, fun k => sortDesc_stable _ k⟩
  · intro r hr
    rw [heq] at hr
    have h1 := List.take_subset q.max_results _ hr
    have h2 := (sortDesc_perm _).mem_iff.mp h1
    have h3 := List.mem_filter.mp h2
    simpa using h3.2
  · rw [heq, List.length_take]
    exact min_le_left _ _
  · rw [heq]
    exact (sortDesc_sorted _).sublist (List.take_sublist _ _)

/-- C1 witness: the confirmed claim at a one-element result list. -/
theorem claim_C1_witness :
    1 ≤ (mkQuery [] (1/2) 1).max_results ∧
    (∀ r ∈ filterAndRankResults [mkResult "a" [] 1] (mkQuery [] (1/2) 1),
      (mkQuery [] (1/2) 1).confidence_threshold ≤ r.confidence) ∧
    (filterAndRankResults [mkResult "a" [] 1] (mkQuery [] (1/2) 1)).length ≤
      (mkQuery [] (1/2) 1).max_results :=
  ⟨by norm_num [mkQuery],
    (claim_C1 [mkResult "a" [] 1] (mkQuery [] (1/2) 1) (by norm_num [mkQuery])).2.1,
    (claim_C1 [mkResult "a" [] 1] (mkQuery [] (1/2) 1) (by norm_num [mkQuery])).2.2.1⟩

/-! ### The selection loop of `_group_results_by_entity` -/

lemma getD_mem (l : List ℚ) : ∀ k, k < l.length → l.getD k 0 ∈ l := by
  induction l with
  | nil => intro k hk; simp at hk
  | cons a l ih =>
      intro k hk
      cases k with
      | zero => simp
      | succ k' =>
          have : l.getD k' 0 ∈ l := ih k' (by simpa using hk)
          simpa using Or.inr this

lemma getD_append_length (l1 l2 : List ℚ) (x : ℚ) :
    (l1 ++ x :: l2).getD l1.length 0 = x := by
  induction l1 with
  | nil => rfl
  | cons a l ih => simpa using ih

/-- Full characterization of the `best_group` / `best_similarity` loop:
either no entry beats both the accumulator and the `0.8` threshold and
the accumulator survives, or the result is the earliest index attaining
the strict maximum above the threshold. -/
lemma findBest_spec (sims : List ℚ) : ∀ (i : ℕ) (acc : Option ℕ × ℚ),
    (findBest sims i acc = acc ∧ ∀ s ∈ sims, s ≤ 0.8 ∨ s ≤ acc.2) ∨
    (∃ j, j < sims.length ∧
      findBest sims i acc = (some (i + j), sims.getD j 0) ∧
      (0.8 : ℚ) < sims.getD j 0 ∧ acc.2 < sims.getD j 0 ∧
      (∀ k, k < sims.length → sims.getD k 0 ≤ sims.getD j 0) ∧
      (∀ k, k < j → sims.getD k 0 < sims.getD j 0)) := by
  induction sims with
  | nil => intro i acc; left; exact ⟨rfl, by simp⟩
  | cons s rest ih =>
      intro i acc
      by_cases hc : acc.2 < s ∧ (0.8 : ℚ) < s
      · have hstep : findBest (s :: rest) i acc = findBest rest (i + 1) (some i, s) := by
          have h0 : findBest (s :: rest) i acc = findBest rest (i + 1)
              (if acc.2 < s ∧ (0.8 : ℚ) < s then (some i, s) else acc) := by
            simp only [findBest]
          rw [h0, if_pos hc]
        rcases ih (i + 1) (some i, s) with ⟨heq, hall⟩ | ⟨j, hj, heq, h08, hacc, hmax, hlt⟩
        · right
          refine ⟨0, by simp, ?_, hc.2, hc.1, ?_, ?_⟩
          · rw [hstep, heq]; simp
          · intro k hk
            cases k with
            | zero => simp
            | succ k' =>
                have hk' : k' < rest.length := by simpa using hk
                have hmem := getD_mem rest k' hk'
                rcases hall _ hmem with h | h
                · exact le_of_lt (lt_of_le_of_lt h hc.2)
                · exact h
          · intro k hk; omega
        · right
          refine ⟨j + 1, by simpa using hj, ?_, h08, lt_trans hc.1 hacc, ?_, ?_⟩
          · rw [hstep, heq]
            have : i + 1 + j = i + (j + 1) := by omega
            rw [this]
            rfl
          · intro k hk
            cases k with
            | zero => exact le_of_lt hacc
            | succ k' => exact hmax k' (by simpa using hk)
          · intro k hk
            cases k with
            | zero => exact hacc
            | succ k' => exact hlt k' (by omega)
      · have hstep : findBest (s :: rest) i acc = findBest rest (i + 1) acc := by
          have h0 : findBest (s :: rest) i acc = findBest rest (i + 1)
              (if acc.2 < s ∧ (0.8 : ℚ) < s then (some i, s) else acc) := by
            simp only [findBest]
          rw [h0, if_neg hc]
        have hs : s ≤ 0.8 ∨ s ≤ acc.2 := by
          rcases not_and_or.mp hc with h | h
          · exact Or.inr (not_lt.mp h)
          · exact Or.inl (not_lt.mp h)
        rcases ih (i + 1) acc with ⟨heq, hall⟩ | ⟨j, hj, heq, h08, hacc, hmax, hlt⟩
        · left
          refine ⟨hstep.trans heq, ?_⟩
          intro x hx
          rcases List.mem_cons.mp hx with hx | hx
          · exact hx ▸ hs
          · exact hall x hx
        · right
          have hsj : s < rest.getD j 0 := by
            rcases hs with h | h
            · exact lt_of_le_of_lt h h08
            · exact lt_of_le_of_lt h hacc
          refine ⟨j + 1, by simpa using hj, ?_, h08, hacc, ?_, ?_⟩
          · rw [hstep, heq]
            have : i + 1 + j = i + (j + 1) := by omega
            rw [this]
            rfl
          · intro k hk
            cases k with
            | zero => exact le_of_lt hsj
            | succ k' => exact hmax k' (by simpa using hk)
          · intro k hk
            cases k with
            | zero => exact hsj
            | succ k' => exact hlt k' (by omega)

lemma findBest_of_all_le (sims : List ℚ) (h : ∀ s ∈ sims, s ≤ (0.8 : ℚ)) :
    findBest sims 0 (none, 0) = (none, 0) := by
  rcases findBest_spec sims 0 (none, 0) with ⟨heq, _⟩ | ⟨j, hj, _, h08, _, _, _⟩
  · exact heq
  · exact absurd h08 (not_lt.mpr (h _ (getD_mem sims j hj)))

lemma all_le_of_findBest_none (sims : List ℚ)
    (h : (findBest sims 0 (none, 0)).1 = none) :
    ∀ s ∈ sims, s ≤ (0.8 : ℚ) := by
  rcases findBest_spec sims 0 (none, 0) with ⟨heq, hall⟩ | ⟨j, hj, heq, h08, _, _, _⟩
  · intro s hs
    rcases hall s hs with h' | h'
    · exact h'
    · exact le_trans h' (by norm_num)
  · rw [heq] at h; simp at h

lemma findBest_some_props (sims : List ℚ) (j : ℕ) (v : ℚ)
    (h : findBest sims 0 (none, 0) = (some j, v)) :
    j < sims.length ∧ v = sims.getD j 0 ∧ (0.8 : ℚ) < sims.getD j 0 ∧
    (∀ k, k < sims.length → sims.getD k 0 ≤ sims.getD j 0) ∧
    (∀ k, k < j → sims.getD k 0 < sims.getD j 0) := by
  rcases findBest_spec sims 0 (none, 0) with ⟨heq, _⟩ | ⟨j', hj', heq, h08, _, hmax, hlt⟩
  · rw [heq] at h; simp at h
  · rw [heq] at h
    have hj : j' = j := by simpa using congrArg (fun p => p.1) h
    have hv : v = sims.getD j' 0 := by simpa using (congrArg (fun p => p.2) h).symm
    subst hj
    exact ⟨hj', hv, h08, hmax, hlt⟩

lemma findBest_det (sims : List ℚ) (j : ℕ) (hj : j < sims.length)
    (h08 : (0.8 : ℚ) < sims.getD j 0)
    (hmax : ∀ k, k < sims.length → sims.getD k 0 ≤ sims.getD j 0)
    (hlt : ∀ k, k < j → sims.getD k 0 < sims.getD j 0) :
    findBest sims 0 (none, 0) = (some j, sims.getD j 0) := by
  rcases findBest_spec sims 0 (none, 0) with ⟨heq, hall⟩ | ⟨j', hj', heq, h08', _, hmax', hlt'⟩
  · rcases hall _ (getD_mem sims j hj) with h' | h'
    · exact absurd h08 (not_lt.mpr h')
    · exact absurd h08 (not_lt.mpr (le_trans h' (by norm_num)))
  · have hjj : j' = j := by
      rcases lt_trichotomy j' j with h' | h' | h'
      · exact absurd (hmax' j hj) (not_le.mpr (hlt j' h'))
      · exact h'
      · exact absurd (hmax j' hj') (not_le.mpr (hlt' j h'))
    subst hjj
    simpa using heq

/-! ### Structure lemmas for the cluster list -/

lemma appendToGroup_nil (r : SearchResult) (j : ℕ) :
    appendToGroup r j [] = [] := by cases j <;> rfl

lemma appendToGroup_decomp (r : SearchResult) :
    ∀ (rest1 : List Group) (g : Group) (rest2 : List Group),
      appendToGroup r rest1.length (rest1 ++ g :: rest2) =
        rest1 ++ (g.1, g.2 ++ [r]) :: rest2 := by
  intro rest1
  induction rest1 with
  | nil => intro g rest2; rfl
  | cons a t ih =>
      intro g rest2
      have : (a :: t).length = t.length + 1 := rfl
      rw [this, List.cons_append]
      show a :: appendToGroup r t.length (t ++ g :: rest2) = _
      rw [ih g rest2]
      rfl

lemma exists_decomp {α : Type} :
    ∀ (l : List α) (j : ℕ), j < l.length →
      ∃ g rest1 rest2, l = rest1 ++ g :: rest2 ∧ rest1.length = j := by
  intro l
  induction l with
  | nil => intro j hj; simp at hj
  | cons a t ih =>
      intro j hj
      cases j with
      | zero => exact ⟨a, [], t, rfl, rfl⟩
      | succ j' =>
          obtain ⟨g, r1, r2, hdec, hlen⟩ := ih j' (by simpa using hj)
          exact ⟨g, a :: r1, r2, by simp [hdec], by simp [hlen]⟩

lemma appendToGroup_map_fst (r : SearchResult) :
    ∀ (gs : List Group) (j : ℕ),
      (appendToGroup r j gs).map (fun g => g.1) = gs.map (fun g => g.1) := by
  intro gs
  induction gs with
  | nil => intro j; rw [appendToGroup_nil]
  | cons g t ih =>
      intro j
      cases j with
      | zero => rfl
      | succ n =>
          show (g :: appendToGroup r n t).map _ = _
          simp [ih n]

lemma groupSims_length (nlpSim : List Char → List Char → ℚ)
    (gs : List Group) (r : SearchResult) :
    (groupSims nlpSim gs r).length = gs.length := by
  simp [groupSims]

lemma groupSims_getD (nlpSim : List Char → List Char → ℚ) (r : SearchResult)
    (rest1 : List Group) (g : Group) (rest2 : List Group) :
    (groupSims nlpSim (rest1 ++ g :: rest2) r).getD rest1.length 0 =
      calculateEntitySimilarity nlpSim r g.1 := by
  rw [groupSims, List.map_append, List.map_cons]
  have : rest1.length = (rest1.map (fun g => calculateEntitySimilarity nlpSim r g.1)).length := by
    simp
  rw [this, getD_append_length]

lemma mem_members_append (g : Group) (r x : SearchResult) :
    x ∈ members (g.1, g.2 ++ [r]) ↔ x ∈ members g ∨ x = r := by
  simp [members, or_assoc]

lemma mem_appendToGroup_members (r : SearchResult) (gs : List Group) (j : ℕ)
    (hj : j < gs.length) (x : SearchResult) :
    (∃ g ∈ appendToGroup r j gs, x ∈ members g) ↔
      (∃ g ∈ gs, x ∈ members g) ∨ x = r := by
  obtain ⟨g, rest1, rest2, hdec, hlen⟩ := exists_decomp gs j hj
  subst hdec
  rw [← hlen, appendToGroup_decomp]
  constructor
  · rintro ⟨g', hg', hx⟩
    rcases List.mem_append.mp hg' with h | h
    · exact Or.inl ⟨g', List.mem_append.mpr (Or.inl h), hx⟩
    · rcases List.mem_cons.mp h with h | h
      · rcases (mem_members_append g r x).mp (h ▸ hx) with h' | h'
        · exact Or.inl ⟨g, List.mem_append.mpr (Or.inr (List.mem_cons_self _ _)), h'⟩
        · exact Or.inr h'
      · exact Or.inl ⟨g', List.mem_append.mpr (Or.inr (List.mem_cons_of_mem _ h)), hx⟩
  · rintro (⟨g', hg', hx⟩ | rfl)
    · rcases List.mem_append.mp hg' with h | h
      · exact ⟨g', List.mem_append.mpr (Or.inl h), hx⟩
      · rcases List.mem_cons.mp h with h | h
        · exact ⟨(g.1, g.2 ++ [r]),
            List.mem_append.mpr (Or.inr (List.mem_cons_self _ _)),
            (mem_members_append g r x).mpr (Or.inl (h ▸ hx))⟩
        · exact ⟨g', List.mem_append.mpr (Or.inr (List.mem_cons_of_mem _ h)), hx⟩
    · exact ⟨(g.1, g.2 ++ [x]),
        List.mem_append.mpr (Or.inr (List.mem_cons_self _ _)),
        (mem_members_append g x x).mpr (Or.inr rfl)⟩

lemma eq_of_nodup_map {α β : Type} (f : α → β) :
    ∀ l : List α, (l.map f).Nodup → ∀ a ∈ l, ∀ b ∈ l, f a = f b → a = b := by
  intro l
  induction l with
  | nil => simp
  | cons x t ih =>
      intro hnd a ha b hb hf
      rw [List.map_cons, List.nodup_cons] at hnd
      rcases List.mem_cons.mp ha with ha1 | ha2
      · rcases List.mem_cons.mp hb with hb1 | hb2
        · rw [ha1, hb1]
        · subst ha1
          exact absurd (by rw [hf]; exact List.mem_map_of_mem f hb2) hnd.1
      · rcases List.mem_cons.mp hb with hb1 | hb2
        · subst hb1
          exact absurd (by rw [← hf]; exact List.mem_map_of_mem f ha2) hnd.1
        · exact ih hnd.2 a ha2 b hb2 hf

/-! ### Invariants of the greedy clustering pass (claims C2, C4, C7) -/

/-- Invariant of the cluster list during one clustering pass, relative
to a classifier `C` of the input results: members come from the input,
every member shares its representative's class, and distinct clusters
have distinct representative classes. -/
def GoodGroups (C : SearchResult → ℕ) (l : List SearchResult)
    (gs : List Group) : Prop :=
  (∀ g ∈ gs, ∀ x ∈ members g, x ∈ l) ∧
  (∀ g ∈ gs, ∀ x ∈ members g, C x = C g.1) ∧
  (gs.map (fun g => C g.1)).Nodup

lemma groupStep_preserves_good (nlpSim : List Char → List Char → ℚ)
    (C : SearchResult → ℕ) (l : List SearchResult)
    (Hsame : ∀ a ∈ l, ∀ b ∈ l, C a = C b →
      (0.8 : ℚ) < calculateEntitySimilarity nlpSim a b)
    (Hdiff : ∀ a ∈ l, ∀ b ∈ l, C a ≠ C b →
      calculateEntitySimilarity nlpSim a b ≤ 0.8)
    (gs : List Group) (r : SearchResult) (hr : r ∈ l)
    (hgood : GoodGroups C l gs) :
    GoodGroups C l (groupStep nlpSim gs r) ∧
    (∀ x, (∃ g ∈ groupStep nlpSim gs r, x ∈ members g) ↔
      (∃ g ∈ gs, x ∈ members g) ∨ x = r) := by
  obtain ⟨hsub, hclass, hnd⟩ := hgood
  rcases hb : (findBest (groupSims nlpSim gs r) 0 (none, 0)).1 with _ | j
  · -- no cluster beats the threshold: a new singleton cluster is appended
    have hstep : groupStep nlpSim gs r = gs ++ [(r, [])] := by
      unfold groupStep; rw [hb]
    have hall := all_le_of_findBest_none _ hb
    have hneq : ∀ g ∈ gs, C g.1 ≠ C r := by
      intro g hg hcon
      have hg1l : g.1 ∈ l := hsub g hg g.1 (by simp [members])
      have hgt := Hsame r hr g.1 hg1l hcon.symm
      have hmem : calculateEntitySimilarity nlpSim r g.1 ∈ groupSims nlpSim gs r := by
        rw [groupSims]
        exact List.mem_map_of_mem _ hg
      exact absurd hgt (not_lt.mpr (hall _ hmem))
    rw [hstep]
    refine ⟨⟨?_, ?_, ?_⟩, ?_⟩
    · intro g hg x hx
      rcases List.mem_append.mp hg with h | h
      · exact hsub g h x hx
      · have hgr : g = (r, []) := by simpa using h
        have hxr : x = r := by
          rw [hgr] at hx; simpa [members] using hx
        exact hxr ▸ hr
    · intro g hg x hx
      rcases List.mem_append.mp hg with h | h
      · exact hclass g h x hx
      · have hgr : g = (r, []) := by simpa using h
        have hxr : x = r := by
          rw [hgr] at hx; simpa [members] using hx
        rw [hgr, hxr]
    · rw [List.map_append]
      refine List.Nodup.append hnd (by simp) ?_
      intro c hc1 hc2
      simp at hc2
      obtain ⟨g, hg, hgc⟩ := List.mem_map.mp hc1
      exact hneq g hg (hgc.trans hc2)
    · intro x
      constructor
      · rintro ⟨g, hg, hx⟩
        rcases List.mem_append.mp hg with h | h
        · exact Or.inl ⟨g, h, hx⟩
        · have hgr : g = (r, []) := by simpa using h
          have hxr : x = r := by
            rw [hgr] at hx; simpa [members] using hx
          exact Or.inr hxr
      · rintro (⟨g, hg, hx⟩ | hxr)
        · exact ⟨g, List.mem_append.mpr (Or.inl hg), hx⟩
        · exact ⟨(r, []), List.mem_append.mpr (Or.inr (by simp)),
            by simp [members, hxr]⟩
  · -- the result joins the cluster at position j
    have hstep : groupStep nlpSim gs r = appendToGroup r j gs := by
      unfold groupStep; rw [hb]
    have hout : findBest (groupSims nlpSim gs r) 0 (none, 0) =
        (some j, (findBest (groupSims nlpSim gs r) 0 (none, 0)).2) := by
      rw [← hb]
    obtain ⟨hjlen, _, h08, _, _⟩ := findBest_some_props _ _ _ hout
    have hjgs : j < gs.length := by
      rw [← groupSims_length nlpSim gs r]; exact hjlen
    have hcons : ∀ x, (∃ g ∈ groupStep nlpSim gs r, x ∈ members g) ↔
        (∃ g ∈ gs, x ∈ members g) ∨ x = r := by
      intro x
      rw [hstep]
      exact mem_appendToGroup_members r gs j hjgs x
    obtain ⟨g, rest1, rest2, hdec, hlen⟩ := exists_decomp gs j hjgs
    have hsim : (0.8 : ℚ) < calculateEntitySimilarity nlpSim r g.1 := by
      have hg := groupSims_getD nlpSim r rest1 g rest2
      rw [← hdec, hlen] at hg
      rw [← hg]
      exact h08
    have hgmem : g ∈ gs := by rw [hdec]; simp
    have hg1l : g.1 ∈ l := hsub g hgmem g.1 (by simp [members])
    have hclass_eq : C g.1 = C r := by
      by_contra hne
      have := Hdiff r hr g.1 hg1l (fun hh => hne hh.symm)
      exact absurd hsim (not_lt.mpr this)
    have hdecomp : groupStep nlpSim gs r = rest1 ++ (g.1, g.2 ++ [r]) :: rest2 := by
      rw [hstep, hdec, ← hlen, appendToGroup_decomp]
    rw [hdecomp]
    have hmem_orig : ∀ g' , g' ∈ rest1 ∨ g' = g ∨ g' ∈ rest2 → g' ∈ gs := by
      intro g' hg'
      rw [hdec]
      rcases hg' with h | h | h
      · exact List.mem_append.mpr (Or.inl h)
      · exact List.mem_append.mpr (Or.inr (h ▸ List.mem_cons_self _ _))
      · exact List.mem_append.mpr (Or.inr (List.mem_cons_of_mem _ h))
    refine ⟨⟨?_, ?_, ?_⟩, fun x => (hdecomp ▸ hcons) x⟩
    · intro g' hg' x hx
      rcases List.mem_append.mp hg' with h | h
      · exact hsub g' (hmem_orig g' (Or.inl h)) x hx
      · rcases List.mem_cons.mp h with h | h
        · rcases (mem_members_append g r x).mp (h ▸ hx) with h' | h'
          · exact hsub g (hmem_orig g (Or.inr (Or.inl rfl))) x h'
          · exact h' ▸ hr
        · exact hsub g' (hmem_orig g' (Or.inr (Or.inr h))) x hx
    · intro g' hg' x hx
      rcases List.mem_append.mp hg' with h | h
      · exact hclass g' (hmem_orig g' (Or.inl h)) x hx
      · rcases List.mem_cons.mp h with h | h
        · have hfst : g'.1 = g.1 := by rw [h]
          rw [hfst]
          rcases (mem_members_append g r x).mp (h ▸ hx) with h' | h'
          · exact hclass g (hmem_orig g (Or.inr (Or.inl rfl))) x h'
          · rw [h', hclass_eq]
        · exact hclass g' (hmem_orig g' (Or.inr (Or.inr h))) x hx
    · have hmap : (rest1 ++ (g.1, g.2 ++ [r]) :: rest2).map (fun g => C g.1) =
          gs.map (fun g => C g.1) := by
        rw [hdec]; simp
      rw [hmap]
      exact hnd

lemma groupFold_good (nlpSim : List Char → List Char → ℚ)
    (C : SearchResult → ℕ) (l : List SearchResult)
    (Hsame : ∀ a ∈ l, ∀ b ∈ l, C a = C b →
      (0.8 : ℚ) < calculateEntitySimilarity nlpSim a b)
    (Hdiff : ∀ a ∈ l, ∀ b ∈ l, C a ≠ C b →
      calculateEntitySimilarity nlpSim a b ≤ 0.8) :
    ∀ (todo : List SearchResult) (gs : List Group),
      (∀ x ∈ todo, x ∈ l) → GoodGroups C l gs →
      GoodGroups C l (todo.foldl (groupStep nlpSim) gs) ∧
      (∀ x, (∃ g ∈ todo.foldl (groupStep nlpSim) gs, x ∈ members g) ↔
        (∃ g ∈ gs, x ∈ members g) ∨ x ∈ todo) := by
  intro todo
  induction todo with
  | nil => intro gs _ hgood; exact ⟨hgood, fun x => by simp⟩
  | cons r t ih =>
      intro gs htodo hgood
      have hr : r ∈ l := htodo r (List.mem_cons_self _ _)
      obtain ⟨hg1, hc1⟩ := groupStep_preserves_good nlpSim C l Hsame Hdiff gs r hr hgood
      obtain ⟨hg2, hc2⟩ := ih (groupStep nlpSim gs r)
        (fun x hx => htodo x (List.mem_cons_of_mem _ hx)) hg1
      refine ⟨hg2, fun x => ?_⟩
      rw [List.foldl_cons]
      rw [hc2 x, hc1 x, List.mem_cons, or_assoc]

/-- Under pairwise-disjoint similarity classes, the final clusters are
exactly the classes: two results are co-clustered iff they are both in
the input and share a class. -/
lemma grouping_characterization (nlpSim : List Char → List Char → ℚ)
    (C : SearchResult → ℕ) (l : List SearchResult)
    (Hsame : ∀ a ∈ l, ∀ b ∈ l, C a = C b →
      (0.8 : ℚ) < calculateEntitySimilarity nlpSim a b)
    (Hdiff : ∀ a ∈ l, ∀ b ∈ l, C a ≠ C b →
      calculateEntitySimilarity nlpSim a b ≤ 0.8)
    (a b : SearchResult) :
    (∃ g ∈ groupResultsByEntity nlpSim l, a ∈ members g ∧ b ∈ members g) ↔
      (a ∈ l ∧ b ∈ l ∧ C a = C b) := by
  have hfold := groupFold_good nlpSim C l Hsame Hdiff l []
    (fun x hx => hx) ⟨by simp, by simp, by simp⟩
  obtain ⟨⟨hsub, hclass, hnd⟩, hcons⟩ := hfold
  constructor
  · rintro ⟨g, hg, ha, hb⟩
    exact ⟨hsub g hg a ha, hsub g hg b hb,
      (hclass g hg a ha).trans (hclass g hg b hb).symm⟩
  · rintro ⟨hal, hbl, hab⟩
    obtain ⟨ga, hga, hina⟩ := (hcons a).mpr (Or.inr hal)
    obtain ⟨gb, hgb, hinb⟩ := (hcons b).mpr (Or.inr hbl)
    have hgab : ga = gb := by
      refine eq_of_nodup_map (fun g => C g.1) _ hnd ga hga gb hgb ?_
      show C ga.1 = C gb.1
      rw [← hclass ga hga a hina, ← hclass gb hgb b hinb, hab]
    exact ⟨gb, hgb, hgab ▸ hina, hinb⟩

/-- C7: clustering is order-invariant for inputs whose `>0.8`-similarity
classes are pairwise disjoint (witnessed by a classifier `C` such that
same-class pairs are similar above the threshold and cross-class pairs
are not).  Feeding any permutation of the input yields the same
co-clustering relation, i.e. the same cluster membership as a set of
sets, though cluster ids and representatives may differ. -/
theorem claim_C7 (nlpSim : List Char → List Char → ℚ)
    (C : SearchResult → ℕ) (l1 l2 : List SearchResult) (hperm : l1.Perm l2)
    (Hsame : ∀ a ∈ l1, ∀ b ∈ l1, C a = C b →
      (0.8 : ℚ) < calculateEntitySimilarity nlpSim a b)
    (Hdiff : ∀ a ∈ l1, ∀ b ∈ l1, C a ≠ C b →
      calculateEntitySimilarity nlpSim a b ≤ 0.8) :
    ∀ a b, (∃ g ∈ groupResultsByEntity nlpSim l1,
        a ∈ members g ∧ b ∈ members g) ↔
      (∃ g ∈ groupResultsByEntity nlpSim l2,
        a ∈ members g ∧ b ∈ members g) := by
  have Hsame2 : ∀ a ∈ l2, ∀ b ∈ l2, C a = C b →
      (0.8 : ℚ) < calculateEntitySimilarity nlpSim a b :=
    fun a ha b hb => Hsame a (hperm.mem_iff.mpr ha) b (hperm.mem_iff.mpr hb)
  have Hdiff2 : ∀ a ∈ l2, ∀ b ∈ l2, C a ≠ C b →
      calculateEntitySimilarity nlpSim a b ≤ 0.8 :=
    fun a ha b hb => Hdiff a (hperm.mem_iff.mpr ha) b (hperm.mem_iff.mpr hb)
  intro a b
  rw [grouping_characterization nlpSim C l1 Hsame Hdiff a b,
    grouping_characterization nlpSim C l2 Hsame2 Hdiff2 a b,
    hperm.mem_iff (a := a), hperm.mem_iff (a := b)]

/-- One of two dissimilar concrete results for the C7 witness. -/
def c7X : SearchResult := mkResult "x" [("name", .VStr "aa")] 1

/-- The other dissimilar concrete result for the C7 witness. -/
def c7Y : SearchResult := mkResult "y" [("name", .VStr "bb")] 1

/-- The classifier of the C7 witness: one class per source. -/
def c7class : SearchResult → ℕ := fun r => if r.source = "x" then 0 else 1

lemma c7_sim_XX : calculateEntitySimilarity nlpZero c7X c7X = 1 := by
  have hs : entitySims nlpZero c7X c7X =
      [calculateFieldSimilarity nlpZero (.VStr "aa") (.VStr "aa")] := rfl
  have hf : calculateFieldSimilarity nlpZero (.VStr "aa") (.VStr "aa") = 1 := by
    simp +decide [calculateFieldSimilarity, pyTruthy]
  rw [calculateEntitySimilarity, hs, hf]
  norm_num [listMean]

lemma c7_sim_YY : calculateEntitySimilarity nlpZero c7Y c7Y = 1 := by
  have hs : entitySims nlpZero c7Y c7Y =
      [calculateFieldSimilarity nlpZero (.VStr "bb") (.VStr "bb")] := rfl
  have hf : calculateFieldSimilarity nlpZero (.VStr "bb") (.VStr "bb") = 1 := by
    simp +decide [calculateFieldSimilarity, pyTruthy]
  rw [calculateEntitySimilarity, hs, hf]
  norm_num [listMean]

lemma c7_field_ab : calculateFieldSimilarity nlpZero (.VStr "aa") (.VStr "bb") = 0 := by
  have hv1 : pyLowerStrip (.VStr "aa") = "aa".data := rfl
  have hv2 : pyLowerStrip (.VStr "bb") = "bb".data := rfl
  have hd : levDistance "aa".data "bb".data = 2 := by decide
  simp +decide [calculateFieldSimilarity, pyTruthy, hv1, hv2, levenshteinSimilarity, hd]

lemma c7_field_ba : calculateFieldSimilarity nlpZero (.VStr "bb") (.VStr "aa") = 0 := by
  have hv1 : pyLowerStrip (.VStr "bb") = "bb".data := rfl
  have hv2 : pyLowerStrip (.VStr "aa") = "aa".data := rfl
  have hd : levDistance "bb".data "aa".data = 2 := by decide
  simp +decide [calculateFieldSimilarity, pyTruthy, hv1, hv2, levenshteinSimilarity, hd]

lemma c7_sim_XY : calculateEntitySimilarity nlpZero c7X c7Y = 0 := by
  have hs : entitySims nlpZero c7X c7Y =
      [calculateFieldSimilarity nlpZero (.VStr "aa") (.VStr "bb")] := rfl
  rw [calculateEntitySimilarity, hs, c7_field_ab]
  norm_num [listMean]

lemma c7_sim_YX : calculateEntitySimilarity nlpZero c7Y c7X = 0 := by
  have hs : entitySims nlpZero c7Y c7X =
      [calculateFieldSimilarity nlpZero (.VStr "bb") (.VStr "aa")] := rfl
  rw [calculateEntitySimilarity, hs, c7_field_ba]
  norm_num [listMean]

/-- C7 witness: order invariance applied to the two-element input
`[c7X, c7Y]` and its transposition, with the per-source classifier. -/
theorem claim_C7_witness :
    ([c7X, c7Y].Perm [c7Y, c7X]) ∧
    ((∃ g ∈ groupResultsByEntity nlpZero [c7X, c7Y],
        c7X ∈ members g ∧ c7Y ∈ members g) ↔
      (∃ g ∈ groupResultsByEntity nlpZero [c7Y, c7X],
        c7X ∈ members g ∧ c7Y ∈ members g)) := by
  have hperm : [c7X, c7Y].Perm [c7Y, c7X] := List.Perm.swap c7Y c7X []
  have hclassX : c7class c7X = 0 := rfl
  have hclassY : c7class c7Y = 1 := rfl
  have hsame : ∀ a ∈ [c7X, c7Y], ∀ b ∈ [c7X, c7Y], c7class a = c7class b →
      (0.8 : ℚ) < calculateEntitySimilarity nlpZero a b := by
    intro a ha b hb hC
    rcases List.mem_cons.mp ha with rfl | ha
    · rcases List.mem_cons.mp hb with rfl | hb
      · rw [c7_sim_XX]; norm_num
      · rcases List.mem_cons.mp hb with rfl | hb
        · rw [hclassX, hclassY] at hC; exact absurd hC (by norm_num)
        · exact absurd hb (List.not_mem_nil b)
    · rcases List.mem_cons.mp ha with rfl | ha
      · rcases List.mem_cons.mp hb with rfl | hb
        · rw [hclassX, hclassY] at hC; exact absurd hC.symm (by norm_num)
        · rcases List.mem_cons.mp hb with rfl | hb
          · rw [c7_sim_YY]; norm_num
          · exact absurd hb (List.not_mem_nil b)
      · exact absurd ha (List.not_mem_nil a)
  have hdiff : ∀ a ∈ [c7X, c7Y], ∀ b ∈ [c7X, c7Y], c7class a ≠ c7class b →
      calculateEntitySimilarity nlpZero a b ≤ 0.8 := by
    intro a ha b hb hC
    rcases List.mem_cons.mp ha with rfl | ha
    · rcases List.mem_cons.mp hb with rfl | hb
      · exact absurd rfl hC
      · rcases List.mem_cons.mp hb with rfl | hb
        · rw [c7_sim_XY]; norm_num
        · exact absurd hb (List.not_mem_nil b)
    · rcases List.mem_cons.mp ha with rfl | ha
      · rcases List.mem_cons.mp hb with rfl | hb
        · rw [c7_sim_YX]; norm_num
        · rcases List.mem_cons.mp hb with rfl | hb
          · exact absurd rfl hC
          · exact absurd hb (List.not_mem_nil b)
      · exact absurd ha (List.not_mem_nil a)
  exact ⟨hperm,
    claim_C7 nlpZero c7class [c7X, c7Y] [c7Y, c7X] hperm hsame hdiff c7X c7Y⟩

/-! ### Claim C2 — the cluster-assignment rule, and identical results -/

lemma findBest_some_lt (sims : List ℚ) (j : ℕ)
    (h : (findBest sims 0 (none, 0)).1 = some j) : j < sims.length := by
  have hout : findBest sims 0 (none, 0) =
      (some j, (findBest sims 0 (none, 0)).2) := by rw [← h]
  exact (findBest_some_props _ _ _ hout).1

lemma entitySim_congr_left (nlpSim : List Char → List Char → ℚ)
    (A B x : SearchResult) (h : A.raw_data = B.raw_data) :
    calculateEntitySimilarity nlpSim A x = calculateEntitySimilarity nlpSim B x := by
  unfold calculateEntitySimilarity entitySims extractComparisonFields
  rw [h]

lemma groupSims_congr (nlpSim : List Char → List Char → ℚ)
    (A B : SearchResult) (h : A.raw_data = B.raw_data) :
    ∀ gs : List Group, groupSims nlpSim gs A = groupSims nlpSim gs B := by
  intro gs
  induction gs with
  | nil => rfl
  | cons g t ih =>
      show (g :: t).map _ = (g :: t).map _
      rw [List.map_cons, List.map_cons]
      rw [entitySim_congr_left nlpSim A B g.1 h]
      exact congrArg _ ih

lemma getD_append_lt (l1 l2 : List ℚ) :
    ∀ k, k < l1.length → (l1 ++ l2).getD k 0 = l1.getD k 0 := by
  induction l1 with
  | nil => intro k hk; simp at hk
  | cons a t ih =>
      intro k hk
      cases k with
      | zero => rfl
      | succ k' => exact ih k' (by simpa using hk)

lemma fieldSim_same_str (nlpSim : List Char → List Char → ℚ)
    (s : String) (h : s ≠ "") :
    calculateFieldSimilarity nlpSim (.VStr s) (.VStr s) = 1 := by
  simp [calculateFieldSimilarity, pyTruthy, h]

lemma entitySim_self_one (nlpSim : List Char → List Char → ℚ)
    (A B : SearchResult) (h : A.raw_data = B.raw_data)
    (hf : ∀ f ∈ (["name", "email", "phone", "address"] : List String),
      ∃ s : String, dlookup A.raw_data f = some (.VStr s) ∧ s ≠ "") :
    calculateEntitySimilarity nlpSim B A = 1 := by
  obtain ⟨sn, hsn, hsn0⟩ := hf "name" (by simp)
  obtain ⟨se, hse, hse0⟩ := hf "email" (by simp)
  obtain ⟨sp, hsp, hsp0⟩ := hf "phone" (by simp)
  obtain ⟨sa, hsa, hsa0⟩ := hf "address" (by simp)
  have hext : extractComparisonFields A =
      [("name", .VStr sn), ("email", .VStr se),
       ("phone", .VStr sp), ("address", .VStr sa)] := by
    simp [extractComparisonFields, hsn, hse, hsp, hsa]
  have hBA : extractComparisonFields B = extractComparisonFields A := by
    unfold extractComparisonFields; rw [h]
  have hs : entitySims nlpSim B A = [1, 1, 1, 1] := by
    unfold entitySims
    rw [hBA, hext]
    simp +decide [entitySimEntry, dlookup, fieldSim_same_str nlpSim sn hsn0,
      fieldSim_same_str nlpSim se hse0, fieldSim_same_str nlpSim sp hsp0,
      fieldSim_same_str nlpSim sa hsa0]
  rw [calculateEntitySimilarity, hs]
  norm_num [listMean]

lemma appendToGroup_mono (r : SearchResult) :
    ∀ (gs : List Group) (j : ℕ) (g : Group), g ∈ gs →
      ∃ g' ∈ appendToGroup r j gs, ∀ x, x ∈ members g → x ∈ members g' := by
  intro gs
  induction gs with
  | nil => intro j g hg; exact absurd hg (List.not_mem_nil g)
  | cons a t ih =>
      intro j g hg
      cases j with
      | zero =>
          rcases List.mem_cons.mp hg with h | hg
          · exact ⟨(a.1, a.2 ++ [r]), List.mem_cons_self _ _,
              fun x hx => (mem_members_append a r x).mpr (Or.inl (h ▸ hx))⟩
          · exact ⟨g, List.mem_cons_of_mem _ hg, fun x hx => hx⟩
      | succ jn =>
          rcases List.mem_cons.mp hg with h | hg
          · exact ⟨a, List.mem_cons_self _ _, fun x hx => h ▸ hx⟩
          · obtain ⟨g', hg', hmono⟩ := ih jn g hg
            exact ⟨g', List.mem_cons_of_mem _ hg', hmono⟩

lemma groupStep_mono (nlpSim : List Char → List Char → ℚ)
    (gs : List Group) (r : SearchResult) (g : Group) (hg : g ∈ gs) :
    ∃ g' ∈ groupStep nlpSim gs r, ∀ x, x ∈ members g → x ∈ members g' := by
  unfold groupStep
  rcases (findBest (groupSims nlpSim gs r) 0 (none, 0)).1 with _ | j
  · exact ⟨g, List.mem_append.mpr (Or.inl hg), fun x hx => hx⟩
  · exact appendToGroup_mono r gs j g hg

lemma cocluster_persists (nlpSim : List Char → List Char → ℚ)
    (A B : SearchResult) :
    ∀ (todo : List SearchResult) (gs : List Group),
      (∃ g ∈ gs, A ∈ members g ∧ B ∈ members g) →
      ∃ g ∈ todo.foldl (groupStep nlpSim) gs, A ∈ members g ∧ B ∈ members g := by
  intro todo
  induction todo with
  | nil => intro gs h; exact h
  | cons r t ih =>
      intro gs h
      rw [List.foldl_cons]
      apply ih
      obtain ⟨g, hg, hA, hB⟩ := h
      obtain ⟨g', hg', hmono⟩ := groupStep_mono nlpSim gs r g hg
      exact ⟨g', hg', hmono A hA, hmono B hB⟩

/-- An identical pair processed back to back ends up co-clustered. -/
lemma adjacent_identical_cocluster (nlpSim : List Char → List Char → ℚ)
    (l1 l2 : List SearchResult) (A B : SearchResult)
    (hraw : A.raw_data = B.raw_data)
    (hf : ∀ f ∈ (["name", "email", "phone", "address"] : List String),
      ∃ s : String, dlookup A.raw_data f = some (.VStr s) ∧ s ≠ "") :
    ∃ g ∈ groupResultsByEntity nlpSim (l1 ++ A :: B :: l2),
      A ∈ members g ∧ B ∈ members g := by
  unfold groupResultsByEntity
  rw [List.foldl_append, List.foldl_cons, List.foldl_cons]
  apply cocluster_persists
  set gs0 := l1.foldl (groupStep nlpSim) [] with hgs0
  have hself : calculateEntitySimilarity nlpSim B A = 1 :=
    entitySim_self_one nlpSim A B hraw hf
  rcases hb : (findBest (groupSims nlpSim gs0 A) 0 (none, 0)).1 with _ | j
  · -- A founded a new cluster; B joins it
    have h1 : groupStep nlpSim gs0 A = gs0 ++ [(A, [])] := by
      unfold groupStep; rw [hb]
    have hall := all_le_of_findBest_none _ hb
    have hmap : gs0.map (fun g => calculateEntitySimilarity nlpSim B g.1) =
        gs0.map (fun g => calculateEntitySimilarity nlpSim A g.1) :=
      (groupSims_congr nlpSim A B hraw gs0).symm
    have hsims : groupSims nlpSim (gs0 ++ [(A, [])]) B =
        groupSims nlpSim gs0 A ++ [calculateEntitySimilarity nlpSim B A] := by
      show (gs0 ++ [(A, [])]).map
          (fun g : Group => calculateEntitySimilarity nlpSim B g.1) =
        groupSims nlpSim gs0 A ++ [calculateEntitySimilarity nlpSim B A]
      rw [List.map_append, hmap]
      rfl
    have hdet : findBest (groupSims nlpSim (gs0 ++ [(A, [])]) B) 0 (none, 0) =
        (some (groupSims nlpSim gs0 A).length, 1) := by
      rw [hsims, hself]
      have hres := findBest_det (groupSims nlpSim gs0 A ++ [1])
        (groupSims nlpSim gs0 A).length
        (by simp)
        (by rw [getD_append_length]; norm_num)
        ?_ ?_
      · rw [getD_append_length] at hres
        exact hres
      · intro k hk
        rw [getD_append_length]
        rcases Nat.lt_or_ge k (groupSims nlpSim gs0 A).length with h' | h'
        · rw [getD_append_lt _ _ k h']
          exact le_trans (hall _ (getD_mem _ k h')) (by norm_num)
        · have hk' : k = (groupSims nlpSim gs0 A).length := by
            simp at hk; omega
          rw [hk', getD_append_length]
      · intro k hk
        rw [getD_append_length, getD_append_lt _ _ k hk]
        exact lt_of_le_of_lt (hall _ (getD_mem _ k hk)) (by norm_num)
    have h2 : groupStep nlpSim (gs0 ++ [(A, [])]) B =
        appendToGroup B gs0.length (gs0 ++ [(A, [])]) := by
      unfold groupStep
      rw [hdet]
      show appendToGroup B (groupSims nlpSim gs0 A).length (gs0 ++ [(A, [])]) =
        appendToGroup B gs0.length (gs0 ++ [(A, [])])
      rw [groupSims_length]
    have h3 : appendToGroup B gs0.length (gs0 ++ [(A, [])]) =
        gs0 ++ [(A, [B])] := by
      have := appendToGroup_decomp B gs0 (A, []) []
      simpa using this
    rw [h1, h2, h3]
    exact ⟨(A, [B]), by simp, by simp [members], by simp [members]⟩
  · -- A joined the cluster at position j; B follows it there
    have h1 : groupStep nlpSim gs0 A = appendToGroup A j gs0 := by
      unfold groupStep; rw [hb]
    have hjgs : j < gs0.length := by
      rw [← groupSims_length nlpSim gs0 A]
      exact findBest_some_lt _ j hb
    obtain ⟨g, rest1, rest2, hdec, hlen⟩ := exists_decomp gs0 j hjgs
    have hgs1 : groupStep nlpSim gs0 A = rest1 ++ (g.1, g.2 ++ [A]) :: rest2 := by
      rw [h1, hdec, ← hlen, appendToGroup_decomp]
    have hsims : groupSims nlpSim (rest1 ++ (g.1, g.2 ++ [A]) :: rest2) B =
        groupSims nlpSim gs0 A := by
      rw [← groupSims_congr nlpSim A B hraw]
      show (rest1 ++ (g.1, g.2 ++ [A]) :: rest2).map
        (fun g => calculateEntitySimilarity nlpSim A g.1) = _
      rw [hdec]
      simp [groupSims]
    have h2 : groupStep nlpSim (groupStep nlpSim gs0 A) B =
        appendToGroup B j (groupStep nlpSim gs0 A) := by
      conv_lhs => rw [hgs1]
      conv_rhs => rw [hgs1]
      unfold groupStep
      rw [hsims, hb]
    have h3 : appendToGroup B j (groupStep nlpSim gs0 A) =
        rest1 ++ (g.1, (g.2 ++ [A]) ++ [B]) :: rest2 := by
      rw [hgs1, ← hlen, appendToGroup_decomp]
    rw [h2, h3]
    refine ⟨(g.1, (g.2 ++ [A]) ++ [B]), by simp, ?_, ?_⟩
    · simp [members]
    · simp [members]

/-- C2 (amended): one clustering step appends the incoming result to
the existing cluster at the earliest index attaining the strictly
highest representative similarity, provided it strictly exceeds `0.8`
(so ties favor the earliest-created cluster); when no representative
similarity exceeds `0.8` a new singleton cluster is appended.  Two
results with identical raw field mappings, all four identity fields
present and non-empty, end up in the same cluster provided they are
processed back to back (the original "always" fails: an intervening
cluster can capture the second copy — see the C2 counterexample). -/
theorem claim_C2_amended :
    (∀ (n : List Char → List Char → ℚ) (gs : List Group) (r : SearchResult),
      (∀ s ∈ groupSims n gs r, s ≤ (0.8 : ℚ)) →
      groupStep n gs r = gs ++ [(r, [])]) ∧
    (∀ (n : List Char → List Char → ℚ) (gs : List Group) (r : SearchResult)
      (j : ℕ), j < gs.length →
      (0.8 : ℚ) < (groupSims n gs r).getD j 0 →
      (∀ k, k < gs.length → (groupSims n gs r).getD k 0 ≤ (groupSims n gs r).getD j 0) →
      (∀ k, k < j → (groupSims n gs r).getD k 0 < (groupSims n gs r).getD j 0) →
      groupStep n gs r = appendToGroup r j gs) ∧
    (∀ (n : List Char → List Char → ℚ) (l1 l2 : List SearchResult)
      (A B : SearchResult), A.raw_data = B.raw_data →
      (∀ f ∈ (["name", "email", "phone", "address"] : List String),
        ∃ s : String, dlookup A.raw_data f = some (.VStr s) ∧ s ≠ "") →
      ∃ g ∈ groupResultsByEntity n (l1 ++ A :: B :: l2),
        A ∈ members g ∧ B ∈ members g) := by
  refine ⟨?_, ?_, ?_⟩
  · intro n gs r h
    unfold groupStep
    rw [findBest_of_all_le _ h]
  · intro n gs r j hj h08 hmax hlt
    have hlen := groupSims_length n gs r
    have hdet := findBest_det (groupSims n gs r) j (by rw [hlen]; exact hj) h08
      (fun k hk => hmax k (by rw [← hlen]; exact hk)) hlt
    unfold groupStep
    rw [hdet]
  · exact adjacent_identical_cocluster

/-- One of the identical pair of the C2 witness. -/
def c2wA : SearchResult :=
  mkResult "wa"
    [("name", .VStr "nm"), ("email", .VStr "em"),
     ("phone", .VStr "ph"), ("address", .VStr "ad")] 1

/-- The other of the identical pair of the C2 witness. -/
def c2wB : SearchResult :=
  mkResult "wb"
    [("name", .VStr "nm"), ("email", .VStr "em"),
     ("phone", .VStr "ph"), ("address", .VStr "ad")] 1

/-- C2 witness: the amended adjacency clause applied to an adjacent
identical pair, which does land in one cluster. -/
theorem claim_C2_witness :
    c2wA.raw_data = c2wB.raw_data ∧
    (∀ f ∈ (["name", "email", "phone", "address"] : List String),
      ∃ s : String, dlookup c2wA.raw_data f = some (.VStr s) ∧ s ≠ "") ∧
    (∃ g ∈ groupResultsByEntity nlpZero [c2wA, c2wB],
      c2wA ∈ members g ∧ c2wB ∈ members g) := by
  have hfields : ∀ f ∈ (["name", "email", "phone", "address"] : List String),
      ∃ s : String, dlookup c2wA.raw_data f = some (.VStr s) ∧ s ≠ "" := by
    intro f hf
    rcases List.mem_cons.mp hf with rfl | hf
    · exact ⟨"nm", rfl, by decide⟩
    · rcases List.mem_cons.mp hf with rfl | hf
      · exact ⟨"em", rfl, by decide⟩
      · rcases List.mem_cons.mp hf with rfl | hf
        · exact ⟨"ph", rfl, by decide⟩
        · rcases List.mem_cons.mp hf with rfl | hf
          · exact ⟨"ad", rfl, by decide⟩
          · exact absurd hf (List.not_mem_nil f)
  exact ⟨rfl, hfields,
    claim_C2_amended.2.2 nlpZero [] [] c2wA c2wB rfl hfields⟩

/-- First cluster seed of the C2 counterexample: a lone phone number
one digit away from the duplicated record's phone. -/
def c2R0 : SearchResult := mkResult "r0" [("phone", .VStr "1234567891")] 1

/-- First copy of the duplicated record. -/
def c2A : SearchResult :=
  mkResult "srcA"
    [("name", .VStr "x"), ("email", .VStr "e"),
     ("phone", .VStr "1234567890"), ("address", .VStr "z")] 1

/-- Second cluster seed: matches the duplicated record on name, email
and address but carries no phone. -/
def c2R1 : SearchResult :=
  mkResult "r1"
    [("name", .VStr "x"), ("email", .VStr "e"), ("address", .VStr "z")] 1

/-- Second copy of the duplicated record (same raw data as `c2A`). -/
def c2B : SearchResult :=
  mkResult "srcB"
    [("name", .VStr "x"), ("email", .VStr "e"),
     ("phone", .VStr "1234567890"), ("address", .VStr "z")] 1

lemma c2_field_phone :
    calculateFieldSimilarity nlpZero (.VStr "1234567890") (.VStr "1234567891")
      = 9/10 := by
  have hv1 : pyLowerStrip (.VStr "1234567890") = "1234567890".data := rfl
  have hv2 : pyLowerStrip (.VStr "1234567891") = "1234567891".data := rfl
  have hd : levDistance "1234567890".data "1234567891".data = 1 := by decide
  simp +decide [calculateFieldSimilarity, pyTruthy, hv1, hv2,
    levenshteinSimilarity, hd]
  norm_num

lemma c2_sim_A_R0 : calculateEntitySimilarity nlpZero c2A c2R0 = 9/10 := by
  have hs : entitySims nlpZero c2A c2R0 =
      [calculateFieldSimilarity nlpZero (.VStr "1234567890") (.VStr "1234567891")] := rfl
  rw [calculateEntitySimilarity, hs, c2_field_phone]
  norm_num [listMean]

lemma c2_sim_B_R0 : calculateEntitySimilarity nlpZero c2B c2R0 = 9/10 := by
  rw [← entitySim_congr_left nlpZero c2A c2B c2R0 rfl]
  exact c2_sim_A_R0

lemma c2_sim_R1_R0 : calculateEntitySimilarity nlpZero c2R1 c2R0 = 0 := rfl

lemma c2_sim_B_R1 : calculateEntitySimilarity nlpZero c2B c2R1 = 1 := by
  have hs : entitySims nlpZero c2B c2R1 =
      [calculateFieldSimilarity nlpZero (.VStr "x") (.VStr "x"),
       calculateFieldSimilarity nlpZero (.VStr "e") (.VStr "e"),
       calculateFieldSimilarity nlpZero (.VStr "z") (.VStr "z")] := rfl
  rw [calculateEntitySimilarity, hs,
    fieldSim_same_str nlpZero "x" (by decide),
    fieldSim_same_str nlpZero "e" (by decide),
    fieldSim_same_str nlpZero "z" (by decide)]
  norm_num [listMean]

lemma c2_run : groupResultsByEntity nlpZero [c2R0, c2A, c2R1, c2B] =
    [(c2R0, [c2A]), (c2R1, [c2B])] := by
  have e1 : groupStep nlpZero [] c2R0 = [(c2R0, [])] := rfl
  have e2 : groupStep nlpZero [(c2R0, [])] c2A = [(c2R0, [c2A])] := by
    have hsims : groupSims nlpZero [(c2R0, [])] c2A =
        [calculateEntitySimilarity nlpZero c2A c2R0] := rfl
    have hfb : findBest [(9/10 : ℚ)] 0 (none, 0) = (some 0, 9/10) := by
      norm_num [findBest]
    unfold groupStep
    rw [hsims, c2_sim_A_R0, hfb]
    rfl
  have e3 : groupStep nlpZero [(c2R0, [c2A])] c2R1 =
      [(c2R0, [c2A]), (c2R1, [])] := by
    have hsims : groupSims nlpZero [(c2R0, [c2A])] c2R1 =
        [calculateEntitySimilarity nlpZero c2R1 c2R0] := rfl
    have hfb : findBest [(0 : ℚ)] 0 (none, 0) = (none, 0) := by
      norm_num [findBest]
    unfold groupStep
    rw [hsims, c2_sim_R1_R0, hfb]
    rfl
  have e4 : groupStep nlpZero [(c2R0, [c2A]), (c2R1, [])] c2B =
      [(c2R0, [c2A]), (c2R1, [c2B])] := by
    have hsims : groupSims nlpZero [(c2R0, [c2A]), (c2R1, [])] c2B =
        [calculateEntitySimilarity nlpZero c2B c2R0,
         calculateEntitySimilarity nlpZero c2B c2R1] := rfl
    have hfb : findBest [(9/10 : ℚ), 1] 0 (none, 0) = (some 1, 1) := by
      norm_num [findBest]
    unfold groupStep
    rw [hsims, c2_sim_B_R0, c2_sim_B_R1, hfb]
    rfl
  show List.foldl (groupStep nlpZero) [] [c2R0, c2A, c2R1, c2B] = _
  rw [List.foldl_cons, e1, List.foldl_cons, e2, List.foldl_cons, e3,
    List.foldl_cons, e4]
  rfl

/-- C2 counterexample: `c2A` and `c2B` carry identical name, email,
phone and address fields (identical raw data), yet in the input order
`[c2R0, c2A, c2R1, c2B]` the first copy lands in the cluster seeded by
`c2R0` (phone similarity `0.9`) while the second copy is captured by
the later cluster seeded by `c2R1` (similarity `1.0 > 0.9`) — so
identical results do not always end up in the same cluster. -/
theorem claim_C2_counterexample :
    c2A.raw_data = c2B.raw_data ∧
    (∀ f ∈ (["name", "email", "phone", "address"] : List String),
      ∃ s : String, dlookup c2A.raw_data f = some (.VStr s) ∧ s ≠ "") ∧
    ¬ (∃ g ∈ groupResultsByEntity nlpZero [c2R0, c2A, c2R1, c2B],
      c2A ∈ members g ∧ c2B ∈ members g) := by
  refine ⟨rfl, ?_, ?_⟩
  · intro f hf
    rcases List.mem_cons.mp hf with rfl | hf
    · exact ⟨"x", rfl, by decide⟩
    · rcases List.mem_cons.mp hf with rfl | hf
      · exact ⟨"e", rfl, by decide⟩
      · rcases List.mem_cons.mp hf with rfl | hf
        · exact ⟨"1234567890", rfl, by decide⟩
        · rcases List.mem_cons.mp hf with rfl | hf
          · exact ⟨"z", rfl, by decide⟩
          · exact absurd hf (List.not_mem_nil f)
  · rw [c2_run]
    rintro ⟨g, hg, hA, hB⟩
    rcases List.mem_cons.mp hg with h | hg
    · rw [h] at hB
      rcases List.mem_cons.mp hB with hB | hB
      · have := congrArg SearchResult.source hB
        simp [c2B, c2R0, mkResult] at this
      · have hBA : c2B = c2A := by simpa [members] using hB
        have := congrArg SearchResult.source hBA
        simp [c2B, c2A, mkResult] at this
    · rcases List.mem_cons.mp hg with h | hg
      · rw [h] at hA
        rcases List.mem_cons.mp hA with hA | hA
        · have := congrArg SearchResult.source hA
          simp [c2A, c2R1, mkResult] at this
        · have hAB : c2A = c2B := by simpa [members] using hA
          have := congrArg SearchResult.source hAB
          simp [c2A, c2B, mkResult] at this
      · exact absurd hg (List.not_mem_nil g)

/-! ### Claim C4 — the pairwise similarity formula -/

lemma hasKey_iff (d : Dict) (k : String) :
    hasKey d k = (dlookup d k).isSome := by
  induction d with
  | nil => rfl
  | cons p t ih =>
      cases h : (p.1 == k) with
      | true =>
          have h1 : hasKey (p :: t) k = true := by simp [hasKey, h]
          have h2 : dlookup (p :: t) k = some p.2 := by
            simp [dlookup, List.find?_cons, h]
          rw [h1, h2]
          rfl
      | false =>
          have h1 : hasKey (p :: t) k = hasKey t k := by simp [hasKey, h]
          have h2 : dlookup (p :: t) k = dlookup t k := by
            simp [dlookup, List.find?_cons, h]
          rw [h1, h2, ih]

lemma dlookup_filterMap (get : String → Option Value) :
    ∀ keys : List String, keys.Nodup → ∀ f : String,
      dlookup (keys.filterMap (fun k => (get k).map (fun v => (k, v)))) f =
        if f ∈ keys then get f else none := by
  intro keys
  induction keys with
  | nil => intro _ f; simp [dlookup]
  | cons k t ih =>
      intro hnd f
      rw [List.nodup_cons] at hnd
      rw [List.filterMap_cons]
      rcases hk : get k with _ | v
      · show dlookup (t.filterMap (fun k => (get k).map (fun v => (k, v)))) f = _
        rw [ih hnd.2 f]
        by_cases hf : f = k
        · subst hf
          simp [hnd.1, hk]
        · simp [hf]
      · show dlookup ((k, v) :: t.filterMap (fun k => (get k).map (fun v => (k, v)))) f = _
        by_cases hf : f = k
        · subst hf
          simp [dlookup, hk]
        · have hne : (k == f) = false := by
            simp
            exact fun hh => hf hh.symm
          have hstep : dlookup ((k, v) :: t.filterMap
                (fun k => (get k).map (fun v => (k, v)))) f =
              dlookup (t.filterMap (fun k => (get k).map (fun v => (k, v)))) f := by
            simp [dlookup, List.find?_cons, hne]
          rw [hstep, ih hnd.2 f]
          simp [hf]

lemma extract_lookup (r : SearchResult) (f : String)
    (hf : f ∈ (["name", "email", "phone", "address"] : List String)) :
    dlookup (extractComparisonFields r) f = dlookup r.raw_data f := by
  unfold extractComparisonFields
  rw [dlookup_filterMap (dlookup r.raw_data) _ (by decide) f, if_pos hf]

lemma fieldSim_falsy (nlpSim : List Char → List Char → ℚ) (v1 v2 : Value)
    (h : pyTruthy v1 = false ∨ pyTruthy v2 = false) :
    calculateFieldSimilarity nlpSim v1 v2 = 0 := by
  unfold calculateFieldSimilarity
  rcases h with h | h <;> simp [h]

lemma filterMap_entry_eq (nlpSim : List Char → List Char → ℚ) (d1 d2 : Dict) :
    ∀ keys : List String,
      keys.filterMap (entitySimEntry nlpSim d1 d2) =
        (keys.filter (fun f => (dlookup d1 f).isSome && (dlookup d2 f).isSome)).map
          (fun f => calculateFieldSimilarity nlpSim
            ((dlookup d1 f).getD (.VStr "")) ((dlookup d2 f).getD (.VStr ""))) := by
  intro keys
  induction keys with
  | nil => rfl
  | cons k t ih =>
      rw [List.filterMap_cons, List.filter_cons]
      rcases h1 : dlookup d1 k with _ | v1 <;> rcases h2 : dlookup d2 k with _ | v2 <;>
        simp [entitySimEntry, h1, h2, ih]

/-- The per-field similarity list ranges over exactly the identity
fields present in both raw mappings — present-but-empty fields are
included (each contributing `0.0` by `fieldSim_falsy`), only absent
fields are excluded. -/
lemma entitySims_eq_shared (nlpSim : List Char → List Char → ℚ)
    (r1 r2 : SearchResult) :
    entitySims nlpSim r1 r2 =
      ((["name", "email", "phone", "address"] : List String).filter
        (fun f => hasKey r1.raw_data f && hasKey r2.raw_data f)).map
        (fun f => calculateFieldSimilarity nlpSim
          ((dlookup r1.raw_data f).getD (.VStr ""))
          ((dlookup r2.raw_data f).getD (.VStr ""))) := by
  unfold entitySims
  rw [filterMap_entry_eq]
  have hfilter : (["name", "email", "phone", "address"] : List String).filter
      (fun f => (dlookup (extractComparisonFields r1) f).isSome &&
        (dlookup (extractComparisonFields r2) f).isSome) =
      (["name", "email", "phone", "address"] : List String).filter
        (fun f => hasKey r1.raw_data f && hasKey r2.raw_data f) := by
    apply List.filter_congr
    intro f hf
    rw [extract_lookup r1 f hf, extract_lookup r2 f hf, hasKey_iff, hasKey_iff]
  rw [hfilter]
  apply List.map_congr_left
  intro f hf
  have hf4 : f ∈ (["name", "email", "phone", "address"] : List String) :=
    List.mem_of_mem_filter hf
  rw [extract_lookup r1 f hf4, extract_lookup r2 f hf4]

lemma entitySim_no_shared (nlpSim : List Char → List Char → ℚ)
    (r1 r2 : SearchResult)
    (h : ∀ f ∈ (["name", "email", "phone", "address"] : List String),
      ¬(hasKey r1.raw_data f = true ∧ hasKey r2.raw_data f = true)) :
    calculateEntitySimilarity nlpSim r1 r2 = 0 := by
  have hs : entitySims nlpSim r1 r2 = [] := by
    rw [entitySims_eq_shared]
    have hfe : (["name", "email", "phone", "address"] : List String).filter
        (fun f => hasKey r1.raw_data f && hasKey r2.raw_data f) = [] := by
      rw [List.filter_eq_nil_iff]
      intro f hf
      simp only [Bool.and_eq_true]
      exact h f hf
    rw [hfe]
    rfl
  rw [calculateEntitySimilarity, hs]
  rfl

lemma sim_pos_shares (nlpSim : List Char → List Char → ℚ)
    (r1 r2 : SearchResult)
    (h : (0.8 : ℚ) < calculateEntitySimilarity nlpSim r1 r2) :
    ∃ f ∈ (["name", "email", "phone", "address"] : List String),
      hasKey r1.raw_data f = true ∧ hasKey r2.raw_data f = true := by
  by_contra hno
  push_neg at hno
  rw [entitySim_no_shared nlpSim r1 r2
    (fun f hf hc => absurd hc.2 (hno f hf hc.1))] at h
  norm_num at h

/-- Every non-representative cluster member shares at least one
identity field with its cluster's representative. -/
lemma grouped_tail_shares (nlpSim : List Char → List Char → ℚ)
    (l : List SearchResult) :
    ∀ g ∈ groupResultsByEntity nlpSim l, ∀ x ∈ g.2,
      ∃ f ∈ (["name", "email", "phone", "address"] : List String),
        hasKey x.raw_data f = true ∧ hasKey g.1.raw_data f = true := by
  suffices h : ∀ (todo : List SearchResult) (gs : List Group),
      (∀ g ∈ gs, ∀ x ∈ g.2,
        ∃ f ∈ (["name", "email", "phone", "address"] : List String),
          hasKey x.raw_data f = true ∧ hasKey g.1.raw_data f = true) →
      (∀ g ∈ todo.foldl (groupStep nlpSim) gs, ∀ x ∈ g.2,
        ∃ f ∈ (["name", "email", "phone", "address"] : List String),
          hasKey x.raw_data f = true ∧ hasKey g.1.raw_data f = true) by
    exact h l [] (by simp)
  intro todo
  induction todo with
  | nil => exact fun gs h => h
  | cons r t ih =>
      intro gs hP
      rw [List.foldl_cons]
      apply ih
      rcases hb : (findBest (groupSims nlpSim gs r) 0 (none, 0)).1 with _ | j
      · have hstep : groupStep nlpSim gs r = gs ++ [(r, [])] := by
          unfold groupStep; rw [hb]
        rw [hstep]
        intro g hg x hx
        rcases List.mem_append.mp hg with h | h
        · exact hP g h x hx
        · have hgr : g = (r, []) := by simpa using h
          rw [hgr] at hx
          simp at hx
      · have hjgs : j < gs.length := by
          rw [← groupSims_length nlpSim gs r]
          exact findBest_some_lt _ j hb
        obtain ⟨g0, rest1, rest2, hdec, hlen⟩ := exists_decomp gs j hjgs
        have hsim : (0.8 : ℚ) < calculateEntitySimilarity nlpSim r g0.1 := by
          have hout : findBest (groupSims nlpSim gs r) 0 (none, 0) =
              (some j, (findBest (groupSims nlpSim gs r) 0 (none, 0)).2) := by
            rw [← hb]
          obtain ⟨_, _, h08, _, _⟩ := findBest_some_props _ _ _ hout
          have hg := groupSims_getD nlpSim r rest1 g0 rest2
          rw [← hdec, hlen] at hg
          rw [← hg]
          exact h08
        obtain ⟨f0, hf0, hshare⟩ := sim_pos_shares nlpSim r g0.1 hsim
        have hstep0 : groupStep nlpSim gs r = appendToGroup r j gs := by
          unfold groupStep
          rw [hb]
        have hstep : groupStep nlpSim gs r =
            rest1 ++ (g0.1, g0.2 ++ [r]) :: rest2 := by
          rw [hstep0, hdec, ← hlen, appendToGroup_decomp]
        rw [hstep]
        intro g hg x hx
        have hg0mem : g0 ∈ gs := by
          rw [hdec]
          exact List.mem_append.mpr (Or.inr (List.mem_cons_self _ _))
        rcases List.mem_append.mp hg with h | h
        · have hmem : g ∈ gs := by
            rw [hdec]
            exact List.mem_append.mpr (Or.inl h)
          exact hP g hmem x hx
        · rcases List.mem_cons.mp h with h | h
          · have hfst : g.1 = g0.1 := by rw [h]
            have htail : g.2 = g0.2 ++ [r] := by rw [h]
            rw [htail] at hx
            rcases List.mem_append.mp hx with hx | hx
            · rw [hfst]
              exact hP g0 hg0mem x hx
            · have hxr : x = r := by simpa using hx
              rw [hfst, hxr]
              exact ⟨f0, hf0, hshare⟩
          · have hmem : g ∈ gs := by
              rw [hdec]
              exact List.mem_append.mpr (Or.inr (List.mem_cons_of_mem _ h))
            exact hP g hmem x hx

/-- The similarity formula as the claim words it (for comparison with
`calculateEntitySimilarity`, which is translated from the code): the
mean of per-field similarities over exactly those identity fields that
are present AND non-empty (truthy) in both raw mappings, `0` when no
such field exists. -/
def specSimilarityC4 (nlpSim : List Char → List Char → ℚ)
    (r1 r2 : SearchResult) : ℚ :=
  let shared := (["name", "email", "phone", "address"] : List String).filter
    (fun f => ((dlookup r1.raw_data f).map pyTruthy).getD false &&
      ((dlookup r2.raw_data f).map pyTruthy).getD false)
  if shared.isEmpty then 0
  else listMean (shared.map (fun f => calculateFieldSimilarity nlpSim
    ((dlookup r1.raw_data f).getD (.VStr ""))
    ((dlookup r2.raw_data f).getD (.VStr ""))))

/-- Same name, present-but-empty email on one side. -/
def c4r1 : SearchResult :=
  mkResult "p1" [("name", .VStr "ab"), ("email", .VStr "")] 1

/-- Same name, non-empty email. -/
def c4r2 : SearchResult :=
  mkResult "p2" [("name", .VStr "ab"), ("email", .VStr "x")] 1

/-- A bridge representative carrying both a phone and an email. -/
def c4R : SearchResult :=
  mkResult "hub" [("phone", .VStr "p1"), ("email", .VStr "em1")] 1

/-- Shares only the phone with `c4R`, nothing with `c4B`. -/
def c4A : SearchResult :=
  mkResult "pA" [("phone", .VStr "p1")] 1

/-- Shares only the email with `c4R`, nothing with `c4A`. -/
def c4B : SearchResult :=
  mkResult "pB" [("email", .VStr "em1")] 1

lemma c4_code_sim : calculateEntitySimilarity nlpZero c4r1 c4r2 = 1/2 := by
  have hs : entitySims nlpZero c4r1 c4r2 =
      [calculateFieldSimilarity nlpZero (.VStr "ab") (.VStr "ab"),
       calculateFieldSimilarity nlpZero (.VStr "") (.VStr "x")] := rfl
  rw [calculateEntitySimilarity, hs,
    fieldSim_same_str nlpZero "ab" (by decide),
    fieldSim_falsy nlpZero (.VStr "") (.VStr "x") (Or.inl (by decide))]
  norm_num [listMean]

lemma c4_spec_sim : specSimilarityC4 nlpZero c4r1 c4r2 = 1 := by
  have hs : specSimilarityC4 nlpZero c4r1 c4r2 =
      listMean [calculateFieldSimilarity nlpZero (.VStr "ab") (.VStr "ab")] := rfl
  rw [hs, fieldSim_same_str nlpZero "ab" (by decide)]
  norm_num [listMean]

lemma c4_sim_A_R : calculateEntitySimilarity nlpZero c4A c4R = 1 := by
  have hs : entitySims nlpZero c4A c4R =
      [calculateFieldSimilarity nlpZero (.VStr "p1") (.VStr "p1")] := rfl
  rw [calculateEntitySimilarity, hs, fieldSim_same_str nlpZero "p1" (by decide)]
  norm_num [listMean]

lemma c4_sim_B_R : calculateEntitySimilarity nlpZero c4B c4R = 1 := by
  have hs : entitySims nlpZero c4B c4R =
      [calculateFieldSimilarity nlpZero (.VStr "em1") (.VStr "em1")] := rfl
  rw [calculateEntitySimilarity, hs, fieldSim_same_str nlpZero "em1" (by decide)]
  norm_num [listMean]

lemma c4_run : groupResultsByEntity nlpZero [c4R, c4A, c4B] =
    [(c4R, [c4A, c4B])] := by
  have e1 : groupStep nlpZero [] c4R = [(c4R, [])] := rfl
  have e2 : groupStep nlpZero [(c4R, [])] c4A = [(c4R, [c4A])] := by
    have hsims : groupSims nlpZero [(c4R, [])] c4A =
        [calculateEntitySimilarity nlpZero c4A c4R] := rfl
    have hfb : findBest [(1 : ℚ)] 0 (none, 0) = (some 0, 1) := by
      norm_num [findBest]
    unfold groupStep
    rw [hsims, c4_sim_A_R, hfb]
    rfl
  have e3 : groupStep nlpZero [(c4R, [c4A])] c4B = [(c4R, [c4A, c4B])] := by
    have hsims : groupSims nlpZero [(c4R, [c4A])] c4B =
        [calculateEntitySimilarity nlpZero c4B c4R] := rfl
    have hfb : findBest [(1 : ℚ)] 0 (none, 0) = (some 0, 1) := by
      norm_num [findBest]
    unfold groupStep
    rw [hsims, c4_sim_B_R, hfb]
    rfl
  show List.foldl (groupStep nlpZero) [] [c4R, c4A, c4B] = _
  rw [List.foldl_cons, e1, List.foldl_cons, e2, List.foldl_cons, e3]
  rfl

/-- C4 counterexample.  Two failures of the claim at concrete inputs:
(1) `c4r1`/`c4r2` share the name `"ab"` and both carry an email key,
but `c4r1`'s email is the empty string; the code averages over both
present fields (the empty one contributing `0.0`), giving `0.5`,
whereas the claim's exclude-empty mean gives `1.0`.  (2) `c4A` and
`c4B` share no comparable field at all, yet both join the cluster of
the bridge representative `c4R`, so they end up in the same cluster. -/
theorem claim_C4_counterexample :
    calculateEntitySimilarity nlpZero c4r1 c4r2 = 1/2 ∧
    specSimilarityC4 nlpZero c4r1 c4r2 = 1 ∧
    (["name", "email", "phone", "address"] : List String).all
      (fun f => !(hasKey c4A.raw_data f && hasKey c4B.raw_data f)) = true ∧
    groupResultsByEntity nlpZero [c4R, c4A, c4B] = [(c4R, [c4A, c4B])] ∧
    c4A ∈ members (c4R, [c4A, c4B]) ∧ c4B ∈ members (c4R, [c4A, c4B]) := by
  refine ⟨c4_code_sim, c4_spec_sim, by decide, c4_run, ?_, ?_⟩
  · show c4A ∈ [c4R, c4A, c4B]
    exact List.mem_cons_of_mem _ (List.mem_cons_self _ _)
  · show c4B ∈ [c4R, c4A, c4B]
    exact List.mem_cons_of_mem _ (List.mem_cons_of_mem _ (List.mem_cons_self _ _))

/-- C4 (amended): the similarity is the mean of per-field similarities
over exactly those of {name, email, phone, address} PRESENT in both
raw mappings — a present-but-empty field is not excluded, it stays in
the mean and contributes `0.0` (first two conjuncts); when no key is
shared the similarity is `0` (third conjunct); and a result only ever
joins a cluster whose representative shares a comparable field with it
(fourth conjunct) — but two non-representative members of one cluster
need not share any field with each other (see the counterexample). -/
theorem claim_C4_amended (nlpSim : List Char → List Char → ℚ) :
    (∀ r1 r2 : SearchResult,
      entitySims nlpSim r1 r2 =
        ((["name", "email", "phone", "address"] : List String).filter
          (fun f => hasKey r1.raw_data f && hasKey r2.raw_data f)).map
          (fun f => calculateFieldSimilarity nlpSim
            ((dlookup r1.raw_data f).getD (.VStr ""))
            ((dlookup r2.raw_data f).getD (.VStr "")))) ∧
    (∀ v1 v2 : Value, pyTruthy v1 = false ∨ pyTruthy v2 = false →
      calculateFieldSimilarity nlpSim v1 v2 = 0) ∧
    (∀ r1 r2 : SearchResult,
      (∀ f ∈ (["name", "email", "phone", "address"] : List String),
        ¬(hasKey r1.raw_data f = true ∧ hasKey r2.raw_data f = true)) →
      calculateEntitySimilarity nlpSim r1 r2 = 0) ∧
    (∀ l : List SearchResult, ∀ g ∈ groupResultsByEntity nlpSim l, ∀ x ∈ g.2,
      ∃ f ∈ (["name", "email", "phone", "address"] : List String),
        hasKey x.raw_data f = true ∧ hasKey g.1.raw_data f = true) :=
  ⟨entitySims_eq_shared nlpSim, fieldSim_falsy nlpSim,
   fun r1 r2 h => entitySim_no_shared nlpSim r1 r2 h,
   grouped_tail_shares nlpSim⟩

/-- C4 witness: the amended theorem applied at concrete inputs — the
empty email contributes a zero field similarity, and `c4A`/`c4B`
(sharing no field) have entity similarity `0`. -/
theorem claim_C4_witness :
    (pyTruthy (Value.VStr "") = false ∨ pyTruthy (Value.VStr "x") = false) ∧
    calculateFieldSimilarity nlpZero (.VStr "") (.VStr "x") = 0 ∧
    calculateEntitySimilarity nlpZero c4A c4B = 0 :=
  ⟨Or.inl (by decide),
   (claim_C4_amended nlpZero).2.1 (.VStr "") (.VStr "x") (Or.inl (by decide)),
   (claim_C4_amended nlpZero).2.2.1 c4A c4B (by decide)⟩

/-! ### Claim C6 — the synthetic result's confidence -/

lemma applyAiScoring_map_conf (rs : List SearchResult) (q : SearchQuery)
    (now : ℤ) :
    (applyAiScoring rs q now).map SearchResult.confidence =
      rs.map (fun r => blendedConfidence r q now) := by
  simp [applyAiScoring, blendedConfidence, List.map_map, Function.comp]

/-- A one-member cluster: a court-records result carrying only a name. -/
def c6m : SearchResult := mkResult "court_records" [("name", .VStr "bob")] (4/5)

/-- A query with empty parameters. -/
def c6q : SearchQuery := mkQuery [] 0 10

lemma c6_ai_m : calculateAiConfidence c6m c6q 0 = 63/200 := by
  have hcomp : completenessOf c6m = 1/4 := by
    simp +decide [completenessOf, hasKey, c6m, mkResult]
  have hfresh : freshnessOf c6m 0 = 0 := rfl
  have hcons : assessDataConsistency c6m.raw_data = 0 := by
    simp +decide [assessDataConsistency, hasKey, c6m, mkResult]
  have hrel : assessRelevance c6m c6q = 0 := by
    simp +decide [assessRelevance, hasKey, c6q, mkQuery, c6m, mkResult]
  have hsr : assessSourceReliability c6m.source = 0.95 := rfl
  rw [calculateAiConfidence, assessDataQuality, hcomp, hfresh, hcons, hrel, hsr]
  rw [min_eq_left (by norm_num)]
  norm_num

lemma c6_synth_raw : (syntheticResult "entity_0" [c6m] 0).raw_data =
    [("name", Value.VStr "bob")] := rfl

lemma c6_ai_s :
    calculateAiConfidence (syntheticResult "entity_0" [c6m] 0) c6q 0 = 57/200 := by
  have hcomp : completenessOf (syntheticResult "entity_0" [c6m] 0) = 1/4 := by
    simp +decide [completenessOf, hasKey, c6_synth_raw]
  have hfresh : freshnessOf (syntheticResult "entity_0" [c6m] 0) 0 = 0 := rfl
  have hcons :
      assessDataConsistency (syntheticResult "entity_0" [c6m] 0).raw_data = 0 := by
    rw [c6_synth_raw]
    simp +decide [assessDataConsistency, hasKey]
  have hrel : assessRelevance (syntheticResult "entity_0" [c6m] 0) c6q = 0 := by
    simp +decide [assessRelevance, hasKey, c6q, mkQuery]
  have hsr :
      assessSourceReliability (syntheticResult "entity_0" [c6m] 0).source = 0.85 := rfl
  rw [calculateAiConfidence, assessDataQuality, hcomp, hfresh, hcons, hrel, hsr]
  rw [min_eq_left (by norm_num)]
  norm_num

lemma c6_scored_confs :
    (applyAiScoring (processResults nlpZero [c6m] 0) c6q 0).map
        SearchResult.confidence = [217/400, 223/400] := by
  have h1 : processResults nlpZero [c6m] 0 =
      [syntheticResult "entity_0" [c6m] 0,
       tagMember "entity_0" (syntheticResult "entity_0" [c6m] 0).confidence c6m] := rfl
  rw [h1, applyAiScoring_map_conf]
  have hconf_s : (syntheticResult "entity_0" [c6m] 0).confidence = 4/5 := by
    show listMean [c6m.confidence] = 4/5
    norm_num [listMean, c6m, mkResult]
  have hbs : blendedConfidence (syntheticResult "entity_0" [c6m] 0) c6q 0 =
      217/400 := by
    rw [blendedConfidence, hconf_s, c6_ai_s]
    norm_num
  have hbt : blendedConfidence
      (tagMember "entity_0" (syntheticResult "entity_0" [c6m] 0).confidence c6m)
      c6q 0 = 223/400 := by
    have he : blendedConfidence
        (tagMember "entity_0" (syntheticResult "entity_0" [c6m] 0).confidence c6m)
        c6q 0 = blendedConfidence c6m c6q 0 := rfl
    rw [he, blendedConfidence, c6_ai_m]
    norm_num [c6m, mkResult]
  rw [List.map_cons, List.map_cons, List.map_nil, hbs, hbt]

lemma c6_member_mean :
    listMean ((members ((c6m, ([] : List SearchResult)) : Group)).map
      (fun r => blendedConfidence r c6q 0)) = 223/400 := by
  show listMean [blendedConfidence c6m c6q 0] = 223/400
  rw [blendedConfidence, c6_ai_m]
  norm_num [listMean, c6m, mkResult]

/-- C6 counterexample: for the single-member cluster of `c6m`, the
mean of the members' blended confidences is `0.5575` (`223/400`), but
the synthetic result's final confidence is `0.5425` (`217/400`): the
synthetic is CREATED with the mean of the members' provider-reported
confidences (before any scoring), and the scoring pass then blends
that mean with the synthetic's OWN composite score — computed with the
`entity_correlation` source reliability `0.85`, not the member's
`court_records` reliability `0.95`. -/
theorem claim_C6_counterexample :
    groupResultsByEntity nlpZero [c6m] = [(c6m, [])] ∧
    (applyAiScoring (processResults nlpZero [c6m] 0) c6q 0).map
        SearchResult.confidence = [217/400, 223/400] ∧
    listMean ((members ((c6m, ([] : List SearchResult)) : Group)).map
      (fun r => blendedConfidence r c6q 0)) = 223/400 ∧
    (217/400 : ℚ) ≠ 223/400 :=
  ⟨rfl, c6_scored_confs, c6_member_mean, by norm_num⟩

/-- C6 (amended): the synthetic result is created with confidence equal
to the mean of its members' PROVIDER-reported confidences; after the
scoring pass, the cluster's outputs have confidences
`(provider-mean + synthetic's own composite)/2` for the synthetic and
the ordinary blended confidence for each member — the synthetic's
final confidence is not the mean of the members' blended confidences. -/
theorem claim_C6_amended (eid : String) (group : List SearchResult)
    (q : SearchQuery) (now tnow : ℤ) :
    (applyAiScoring (processEntityGroup eid group now) q tnow).map
        SearchResult.confidence =
      (listMean (group.map (fun r => r.confidence)) +
          calculateAiConfidence (syntheticResult eid group now) q tnow) / 2 ::
        group.map (fun r => blendedConfidence r q tnow) := by
  rw [applyAiScoring_map_conf]
  show (syntheticResult eid group now ::
      group.map (tagMember eid (syntheticResult eid group now).confidence)).map
      (fun r => blendedConfidence r q tnow) = _
  rw [List.map_cons, List.map_map]
  refine congrArg₂ List.cons rfl (List.map_congr_left ?_)
  intro r hr
  show blendedConfidence
      (tagMember eid (syntheticResult eid group now).confidence r) q tnow =
    blendedConfidence r q tnow
  rfl

/-! ### Claim C10 — the output shape of the correlation pass -/

lemma groupStep_members_perm (nlpSim : List Char → List Char → ℚ)
    (gs : List Group) (r : SearchResult) :
    ((groupStep nlpSim gs r).flatMap members).Perm
      (r :: gs.flatMap members) := by
  rcases hb : (findBest (groupSims nlpSim gs r) 0 (none, 0)).1 with _ | j
  · have hstep : groupStep nlpSim gs r = gs ++ [(r, [])] := by
      unfold groupStep
      rw [hb]
    rw [hstep, List.flatMap_append]
    have hone : ([(r, [])] : List Group).flatMap members = [r] := rfl
    rw [hone]
    exact List.perm_append_singleton r (gs.flatMap members)
  · have hjgs : j < gs.length := by
      rw [← groupSims_length nlpSim gs r]
      exact findBest_some_lt _ j hb
    obtain ⟨g0, rest1, rest2, hdec, hlen⟩ := exists_decomp gs j hjgs
    have hstep0 : groupStep nlpSim gs r = appendToGroup r j gs := by
      unfold groupStep
      rw [hb]
    have hstep : groupStep nlpSim gs r =
        rest1 ++ (g0.1, g0.2 ++ [r]) :: rest2 := by
      rw [hstep0, hdec, ← hlen, appendToGroup_decomp]
    rw [hstep, hdec]
    rw [List.flatMap_append, List.flatMap_append, List.flatMap_cons,
      List.flatMap_cons]
    have hm1 : members (g0.1, g0.2 ++ [r]) = members g0 ++ [r] := by
      simp [members]
    rw [hm1]
    have h1 : rest1.flatMap members ++
        ((members g0 ++ [r]) ++ rest2.flatMap members) =
        (rest1.flatMap members ++ members g0) ++ (r :: rest2.flatMap members) := by
      simp
    have h3 : r :: ((rest1.flatMap members ++ members g0) ++ rest2.flatMap members) =
        r :: (rest1.flatMap members ++ (members g0 ++ rest2.flatMap members)) := by
      simp
    rw [h1, ← h3]
    exact List.perm_middle

lemma groupFold_members_perm (nlpSim : List Char → List Char → ℚ) :
    ∀ (todo : List SearchResult) (gs : List Group),
      ((todo.foldl (groupStep nlpSim) gs).flatMap members).Perm
        (todo ++ gs.flatMap members) := by
  intro todo
  induction todo with
  | nil => intro gs; simp
  | cons r t ih =>
      intro gs
      rw [List.foldl_cons]
      have h1 := ih (groupStep nlpSim gs r)
      have h2 : (t ++ (groupStep nlpSim gs r).flatMap members).Perm
          (t ++ (r :: gs.flatMap members)) :=
        List.Perm.append_left t (groupStep_members_perm nlpSim gs r)
      have h3 : (t ++ (r :: gs.flatMap members)).Perm
          (r :: (t ++ gs.flatMap members)) := List.perm_middle
      exact (h1.trans h2).trans h3

/-- The clusters partition the input: their member lists joined together
are a permutation of the raw-result list. -/
lemma groups_members_perm (nlpSim : List Char → List Char → ℚ)
    (l : List SearchResult) :
    ((groupResultsByEntity nlpSim l).flatMap members).Perm l := by
  have h := groupFold_members_perm nlpSim l []
  simpa [groupResultsByEntity] using h

lemma processEntityGroup_length (eid : String) (group : List SearchResult)
    (now : ℤ) :
    (processEntityGroup eid group now).length = group.length + 1 := by
  simp [processEntityGroup]

lemma processResults_length_aux (now : ℤ) :
    ∀ (gs : List Group) (i : ℕ),
      ((withIdx gs i).flatMap
        (fun p => processEntityGroup ("entity_" ++ toString p.1)
          (members p.2) now)).length =
      gs.length + (gs.flatMap members).length := by
  intro gs
  induction gs with
  | nil => intro i; rfl
  | cons g t ih =>
      intro i
      have hwi : withIdx (g :: t) i = (i, g) :: withIdx t (i + 1) := rfl
      rw [hwi, List.flatMap_cons, List.length_append, processEntityGroup_length,
        ih (i + 1), List.flatMap_cons, List.length_append]
      simp only [List.length_cons, members]
      omega

lemma mem_withIdx {α : Type} :
    ∀ (l : List α) (i : ℕ) (g : α), g ∈ l → ∃ j, (j, g) ∈ withIdx l i := by
  intro l
  induction l with
  | nil => intro i g hg; simp at hg
  | cons a t ih =>
      intro i g hg
      rcases List.mem_cons.mp hg with h | h
      · refine ⟨i, ?_⟩
        rw [h]
        exact List.mem_cons_self _ _
      · obtain ⟨j, hj⟩ := ih (i + 1) g h
        exact ⟨j, List.mem_cons_of_mem _ hj⟩

lemma withIdx_mem {α : Type} :
    ∀ (l : List α) (i : ℕ) (p : ℕ × α), p ∈ withIdx l i → p.2 ∈ l := by
  intro l
  induction l with
  | nil => intro i p hp; simp [withIdx] at hp
  | cons a t ih =>
      intro i p hp
      rcases List.mem_cons.mp hp with h | h
      · rw [h]
        exact List.mem_cons_self _ _
      · exact List.mem_cons_of_mem _ (ih (i + 1) p h)

lemma hasKey_dictSet_self (d : Dict) (k : String) (v : Value) :
    hasKey (dictSet d k v) k = true := by
  unfold hasKey dictSet
  by_cases h : d.any (fun p => p.1 == k)
  · rw [if_pos h, List.any_map]
    rcases List.any_eq_true.mp h with ⟨p, hp, hpk⟩
    refine List.any_eq_true.mpr ⟨p, hp, ?_⟩
    show ((if p.1 == k then (k, v) else p).1 == k) = true
    rw [if_pos hpk]
    exact beq_self_eq_true k
  · rw [if_neg h]
    simp

lemma hasKey_dictSet_of (d : Dict) (k k' : String) (v : Value)
    (h : hasKey d k = true) : hasKey (dictSet d k' v) k = true := by
  unfold hasKey at h
  unfold hasKey dictSet
  by_cases hc : d.any (fun p => p.1 == k')
  · rw [if_pos hc, List.any_map]
    rcases List.any_eq_true.mp h with ⟨p, hp, hpk⟩
    refine List.any_eq_true.mpr ⟨p, hp, ?_⟩
    show ((if p.1 == k' then (k', v) else p).1 == k) = true
    by_cases hpk' : (p.1 == k') = true
    · rw [if_pos hpk']
      have h1 : p.1 = k := by simpa using hpk
      have h2 : p.1 = k' := by simpa using hpk'
      rw [h2.symm.trans h1]
      exact beq_self_eq_true k
    · rw [if_neg hpk']
      exact hpk
  · rw [if_neg hc]
    simp [List.any_append, h]

/-- C10: the correlation pass emits, for every cluster in creation
order, one synthetic result — source `entity_correlation`, data type
`correlated_entity`, metadata carrying `entity_id` and
`correlation_method` — followed by every member of that cluster with
the metadata keys `correlated_entity_id` and `correlation_confidence`
added and all other fields unchanged.  Hence the output length is the
input length plus the number of clusters, every output is either such
a synthetic or a tagged copy of an input result, and every input
result reappears tagged (a result matching nothing still yields a
singleton cluster and thus an extra synthetic built from it alone). -/
theorem claim_C10 (nlpSim : List Char → List Char → ℚ)
    (l : List SearchResult) (now : ℤ) :
    (processResults nlpSim l now).length =
      l.length + (groupResultsByEntity nlpSim l).length ∧
    (∀ r ∈ processResults nlpSim l now,
      (r.source = "entity_correlation" ∧ r.data_type = "correlated_entity" ∧
        hasKey r.metadata "entity_id" = true ∧
        hasKey r.metadata "correlation_method" = true) ∨
      (hasKey r.metadata "correlated_entity_id" = true ∧
        hasKey r.metadata "correlation_confidence" = true ∧
        ∃ x ∈ l, r.source = x.source ∧ r.data_type = x.data_type ∧
          r.confidence = x.confidence ∧ r.raw_data = x.raw_data ∧
          r.timestamp = x.timestamp)) ∧
    (∀ x ∈ l, ∃ r ∈ processResults nlpSim l now,
      hasKey r.metadata "correlated_entity_id" = true ∧
      hasKey r.metadata "correlation_confidence" = true ∧
      r.source = x.source ∧ r.data_type = x.data_type ∧
      r.confidence = x.confidence ∧ r.raw_data = x.raw_data ∧
      r.timestamp = x.timestamp) := by
  refine ⟨?_, ?_, ?_⟩
  · rw [processResults, processResults_length_aux now (groupResultsByEntity nlpSim l) 0,
      (groups_members_perm nlpSim l).length_eq]
    omega
  · intro r hr
    rw [processResults] at hr
    rcases List.mem_flatMap.mp hr with ⟨p, hp, hrp⟩
    rcases List.mem_cons.mp hrp with h | h
    · left
      rw [h]
      exact ⟨rfl, rfl, rfl, rfl⟩
    · rcases List.mem_map.mp h with ⟨x, hx, hxy⟩
      right
      have hxl : x ∈ l := by
        have hx2 : x ∈ (groupResultsByEntity nlpSim l).flatMap members :=
          List.mem_flatMap.mpr ⟨p.2, withIdx_mem _ 0 p hp, hx⟩
        exact (groups_members_perm nlpSim l).mem_iff.mp hx2
      refine ⟨?_, ?_, x, hxl, ?_, ?_, ?_, ?_, ?_⟩
      · rw [← hxy]
        exact hasKey_dictSet_of _ "correlated_entity_id" _ _
          (hasKey_dictSet_self _ _ _)
      · rw [← hxy]
        exact hasKey_dictSet_self _ _ _
      · rw [← hxy]
        rfl
      · rw [← hxy]
        rfl
      · rw [← hxy]
        rfl
      · rw [← hxy]
        rfl
      · rw [← hxy]
        rfl
  · intro x hx
    have hx2 : x ∈ (groupResultsByEntity nlpSim l).flatMap members :=
      (groups_members_perm nlpSim l).mem_iff.mpr hx
    rcases List.mem_flatMap.mp hx2 with ⟨g, hg, hxg⟩
    obtain ⟨j, hj⟩ := mem_withIdx _ 0 g hg
    refine ⟨tagMember ("entity_" ++ toString j)
        (syntheticResult ("entity_" ++ toString j) (members g) now).confidence x,
      ?_, ?_, ?_, rfl, rfl, rfl, rfl, rfl⟩
    · rw [processResults]
      refine List.mem_flatMap.mpr ⟨(j, g), hj, ?_⟩
      show tagMember ("entity_" ++ toString j)
          (syntheticResult ("entity_" ++ toString j) (members g) now).confidence x ∈
        processEntityGroup ("entity_" ++ toString j) (members g) now
      exact List.mem_cons_of_mem _ (List.mem_map.mpr ⟨x, hxg, rfl⟩)
    · exact hasKey_dictSet_of _ "correlated_entity_id" _ _
        (hasKey_dictSet_self _ _ _)
    · exact hasKey_dictSet_self _ _ _

/-- A lone result matching nothing else. -/
def c10x : SearchResult := mkResult "s0" [("name", .VStr "solo")] 1

/-- C10 witness: on the one-result input `[c10x]` the output length is
`1 + 1` (the tagged original plus the synthetic of its singleton
cluster), and the tagged copy of `c10x` is in the output. -/
theorem claim_C10_witness :
    (processResults nlpZero [c10x] 0).length =
      [c10x].length + (groupResultsByEntity nlpZero [c10x]).length ∧
    (∃ r ∈ processResults nlpZero [c10x] 0,
      hasKey r.metadata "correlated_entity_id" = true ∧
      hasKey r.metadata "correlation_confidence" = true ∧
      r.source = c10x.source ∧ r.data_type = c10x.data_type ∧
      r.confidence = c10x.confidence ∧ r.raw_data = c10x.raw_data ∧
      r.timestamp = c10x.timestamp) :=
  ⟨(claim_C10 nlpZero [c10x] 0).1,
   (claim_C10 nlpZero [c10x] 0).2.2 c10x (List.mem_cons_self _ _)⟩

end Actimel
